import Mathlib

/-!
Verification of the license ownership and royalty ledger of the
sampled-casper contracts (`src/contracts/src/license_nft.rs`,
`src/contracts/src/license_types.rs`, `src/contracts/src/errors.rs`).

Modelling conventions:
* An `Address` is modelled as a `Nat`.
* `U512` monetary amounts are modelled as `Nat`.  Casper `U512`
  arithmetic panics on overflow, which aborts the call and rolls the
  whole transaction back, so `Nat` arithmetic agrees with the source on
  every call that completes.
* Odra `Mapping` and `Var` storage is modelled as total functions with
  the `get_or_default` default where the code uses `get_or_default`,
  and as `Option`-valued functions where the code uses `get`.
* `self.env().revert(e)` is modelled by returning `Except.error e`;
  the transaction-level rollback-on-error semantics is `applyOp`.
* The order of external token transfers relative to storage writes is
  recorded in an `Event` trace returned by the state-mutating entry
  points, with one event per storage-write group and one per
  `transfer_tokens` call, in source order.
-/

namespace SampledCasper

/-- License types, `license_types.rs` lines 12-22. -/
inductive LicenseType
  | Personal
  | Commercial
  | Broadcast
  | Exclusive
deriving DecidableEq

namespace LicenseType

/-- Conversion from a raw `u8`, `license_types.rs` lines 26-34. -/
def from_u8 : Nat → Option LicenseType
  | 0 => some .Personal
  | 1 => some .Commercial
  | 2 => some .Broadcast
  | 3 => some .Exclusive
  | _ => none

/-- Conversion to a raw `u8`, `license_types.rs` lines 37-44. -/
def to_u8 : LicenseType → Nat
  | .Personal => 0
  | .Commercial => 1
  | .Broadcast => 2
  | .Exclusive => 3

end LicenseType

/-- Royalty percentage for the original creator on resales,
`license_types.rs` line 169. -/
def CREATOR_ROYALTY_PERCENT : Nat := 10

/-- Platform fee percentage on resales, `license_types.rs` line 171. -/
def RESALE_PLATFORM_FEE_PERCENT : Nat := 2

/-- Metadata of a license NFT, `license_types.rs` lines 92-111. -/
structure LicenseMetadata where
  license_id : Nat
  sample_id : Nat
  license_type : LicenseType
  original_creator : Nat
  current_owner : Nat
  purchase_price : Nat
  purchase_timestamp : Nat
  is_active : Bool
  transfer_count : Nat
deriving DecidableEq

/-- The error variants of `errors.rs` that the license ledger raises. -/
inductive Error
  | Unauthorized
  | LicenseNotFound
  | NotLicenseOwner
  | InvalidLicenseType
  | SampleExclusivelyLicensed
  | AlreadyHasLicenseType
  | InsufficientRoyaltyPayment
  | CannotTransferExclusiveLicense
  | NoRoyaltiesToWithdraw
  | LicenseInactive
  | LicenseContractNotSet
deriving DecidableEq

/-- Numeric discriminants of the error variants, `errors.rs`. -/
def Error.code : Error → Nat
  | .Unauthorized => 14
  | .LicenseNotFound => 20
  | .NotLicenseOwner => 21
  | .InvalidLicenseType => 22
  | .SampleExclusivelyLicensed => 23
  | .AlreadyHasLicenseType => 24
  | .InsufficientRoyaltyPayment => 25
  | .CannotTransferExclusiveLicense => 26
  | .NoRoyaltiesToWithdraw => 27
  | .LicenseInactive => 29
  | .LicenseContractNotSet => 31

/-- Observable effects of a state-mutating entry point, in source
order: one event per storage-write group and one `tokenTransfer` per
`self.env().transfer_tokens` call. -/
inductive Event
  | persistLicense (license_id : Nat) (m : LicenseMetadata)
  | tombstoneOwnerSlot (owner idx : Nat)
  | appendOwnerIndex (owner idx license_id : Nat)
  | clearGuard (owner sample_id lt : Nat)
  | setGuard (owner sample_id lt license_id : Nat)
  | zeroEarnings (account : Nat)
  | creditRoyalty (creator amount : Nat)
  | tokenTransfer (recipient amount : Nat)
deriving DecidableEq

/-- The storage of the `LicenseNft` module, `license_nft.rs` lines
28-86. -/
structure State where
  admin : Nat
  marketplace : Option Nat
  licenses : Nat → Option LicenseMetadata
  license_count : Nat
  sample_license_count : Nat → Nat
  sample_license_at : Nat → Nat → Option Nat
  sample_exclusive_holder : Nat → Option Nat
  sample_has_exclusive : Nat → Bool
  owner_license_count : Nat → Nat
  owner_license_at : Nat → Nat → Option Nat
  user_sample_license : Nat → Nat → Nat → Nat
  user_has_license_type : Nat → Nat → Nat → Bool
  creator_royalty_earnings : Nat → Nat
  creator_total_royalties : Nat → Nat

/-- Pointwise update of a one-key mapping. -/
def updf {α : Type} (f : Nat → α) (k : Nat) (v : α) : Nat → α :=
  fun x => if x = k then v else f x

/-- Pointwise update of a two-key mapping. -/
def updf2 {α : Type} (f : Nat → Nat → α) (k1 k2 : Nat) (v : α) : Nat → Nat → α :=
  fun x y => if x = k1 ∧ y = k2 then v else f x y

/-- Pointwise update of a three-key mapping. -/
def updf3 {α : Type} (f : Nat → Nat → Nat → α) (k1 k2 k3 : Nat) (v : α) :
    Nat → Nat → Nat → α :=
  fun x y z => if x = k1 ∧ y = k2 ∧ z = k3 then v else f x y z

/-- The state produced by `init`, `license_nft.rs` lines 96-99;
unset storage is at its odra default. -/
def initState (admin : Nat) : State where
  admin := admin
  marketplace := none
  licenses := fun _ => none
  license_count := 0
  sample_license_count := fun _ => 0
  sample_license_at := fun _ _ => none
  sample_exclusive_holder := fun _ => none
  sample_has_exclusive := fun _ => false
  owner_license_count := fun _ => 0
  owner_license_at := fun _ _ => none
  user_sample_license := fun _ _ _ => 0
  user_has_license_type := fun _ _ _ => false
  creator_royalty_earnings := fun _ => 0
  creator_total_royalties := fun _ => 0

/-- Entry point `set_marketplace`, `license_nft.rs` lines 106-113. -/
def set_marketplace (s : State) (caller m : Nat) : Except Error State :=
  if caller ≠ s.admin then .error .Unauthorized
  else .ok { s with marketplace := some m }

/-- The license record constructed by `mint_license`, `license_nft.rs`
lines 169-179. -/
def mintedLicense (s : State) (timestamp sample_id buyer original_creator
    purchase_price : Nat) (lt : LicenseType) : LicenseMetadata :=
  { license_id := s.license_count + 1
    sample_id := sample_id
    license_type := lt
    original_creator := original_creator
    current_owner := buyer
    purchase_price := purchase_price
    purchase_timestamp := timestamp
    is_active := true
    transfer_count := 0 }

/-- Success branch of `mint_license`, `license_nft.rs` lines 161-222:
all storage writes performed after the precondition checks, and the
returned license id. -/
def mintApply (s : State) (timestamp sample_id license_type buyer
    original_creator purchase_price : Nat) (lt : LicenseType) : State × Nat :=
  let license_id := s.license_count + 1
  let license := mintedLicense s timestamp sample_id buyer original_creator purchase_price lt
  let sc := s.sample_license_count sample_id
  let oc := s.owner_license_count buyer
  let s1 :=
    { s with
      license_count := license_id
      licenses := updf s.licenses license_id (some license)
      sample_license_at := updf2 s.sample_license_at sample_id sc (some license_id)
      sample_license_count := updf s.sample_license_count sample_id (sc + 1)
      owner_license_at := updf2 s.owner_license_at buyer oc (some license_id)
      owner_license_count := updf s.owner_license_count buyer (oc + 1)
      user_sample_license :=
        updf3 s.user_sample_license buyer sample_id license_type license_id
      user_has_license_type :=
        updf3 s.user_has_license_type buyer sample_id license_type true }
  let s2 :=
    if lt.to_u8 = LicenseType.Exclusive.to_u8 then
      { s1 with
        sample_has_exclusive := updf s1.sample_has_exclusive sample_id true
        sample_exclusive_holder :=
          updf s1.sample_exclusive_holder sample_id (some buyer) }
    else s1
  (s2, license_id)

/-- Entry point `mint_license`, `license_nft.rs` lines 131-223.
Returns the new license id on success. -/
def mint_license (s : State) (caller timestamp sample_id license_type buyer
    original_creator purchase_price : Nat) : Except Error (State × Nat) :=
  match s.marketplace with
  | none => .error .LicenseContractNotSet
  | some marketplace =>
    if caller ≠ marketplace then .error .Unauthorized
    else
      match LicenseType.from_u8 license_type with
      | none => .error .InvalidLicenseType
      | some lt =>
        if s.sample_has_exclusive sample_id then .error .SampleExclusivelyLicensed
        else if s.user_has_license_type buyer sample_id license_type then
          .error .AlreadyHasLicenseType
        else
          .ok (mintApply s timestamp sample_id license_type buyer
            original_creator purchase_price lt)

/-- Index of the first slot below the bound holding the given license
id; this is the slot the loop of `remove_from_owner_list`,
`license_nft.rs` lines 476-487, tombstones. -/
def findSlot (f : Nat → Option Nat) (license_id : Nat) : Nat → Option Nat
  | 0 => none
  | n + 1 =>
    match findSlot f license_id n with
    | some i => some i
    | none => if f n = some license_id then some n else none

/-- Internal helper `remove_from_owner_list`, `license_nft.rs` lines
476-487: tombstones (writes 0 into) the first matching slot, if any. -/
def remove_from_owner_list (s : State) (owner license_id : Nat) :
    State × List Event :=
  match findSlot (s.owner_license_at owner) license_id (s.owner_license_count owner) with
  | some i =>
    ({ s with owner_license_at := updf2 s.owner_license_at owner i (some 0) },
     [Event.tombstoneOwnerSlot owner i])
  | none => (s, [])

/-- Success branch of `transfer_license`, `license_nft.rs` lines
271-324: all storage writes performed after the precondition checks,
plus the event trace including the two outgoing token transfers. -/
def transferApply (s : State) (license : LicenseMetadata)
    (license_id to_addr sale_price : Nat) : State × List Event :=
  let creator_royalty := sale_price * CREATOR_ROYALTY_PERCENT / 100
  let platform_fee := sale_price * RESALE_PLATFORM_FEE_PERCENT / 100
  let previous_owner := license.current_owner
  let license_type_u8 := license.license_type.to_u8
  let sample_id := license.sample_id
  let license' :=
    { license with
      current_owner := to_addr
      transfer_count := license.transfer_count + 1 }
  let s1 := { s with licenses := updf s.licenses license_id (some license') }
  let rem := remove_from_owner_list s1 previous_owner license_id
  let s2 := rem.1
  let new_owner_count := s2.owner_license_count to_addr
  let s3 :=
    { s2 with
      owner_license_at := updf2 s2.owner_license_at to_addr new_owner_count (some license_id)
      owner_license_count := updf s2.owner_license_count to_addr (new_owner_count + 1) }
  let s4 :=
    { s3 with
      user_has_license_type :=
        updf3 s3.user_has_license_type previous_owner sample_id license_type_u8 false
      user_sample_license :=
        updf3 s3.user_sample_license previous_owner sample_id license_type_u8 0 }
  let s5 :=
    { s4 with
      user_has_license_type :=
        updf3 s4.user_has_license_type to_addr sample_id license_type_u8 true
      user_sample_license :=
        updf3 s4.user_sample_license to_addr sample_id license_type_u8 license_id }
  let s6 :=
    { s5 with
      creator_royalty_earnings :=
        updf s5.creator_royalty_earnings license.original_creator
          (s5.creator_royalty_earnings license.original_creator + creator_royalty)
      creator_total_royalties :=
        updf s5.creator_total_royalties license.original_creator
          (s5.creator_total_royalties license.original_creator + creator_royalty) }
  (s6,
    [Event.persistLicense license_id license'] ++ rem.2 ++
    [Event.appendOwnerIndex to_addr new_owner_count license_id,
     Event.clearGuard previous_owner sample_id license_type_u8,
     Event.setGuard to_addr sample_id license_type_u8 license_id,
     Event.tokenTransfer previous_owner sale_price,
     Event.creditRoyalty license.original_creator creator_royalty,
     Event.tokenTransfer s.admin platform_fee])

/-- Entry point `transfer_license`, `license_nft.rs` lines 233-325. -/
def transfer_license (s : State) (caller attached_value license_id to_addr
    sale_price : Nat) : Except Error (State × List Event) :=
  match s.licenses license_id with
  | none => .error .LicenseNotFound
  | some license =>
    if license.current_owner ≠ caller then .error .NotLicenseOwner
    else if license.is_active = false then .error .LicenseInactive
    else if license.license_type.to_u8 = LicenseType.Exclusive.to_u8 then
      .error .CannotTransferExclusiveLicense
    else if attached_value < sale_price + sale_price * CREATOR_ROYALTY_PERCENT / 100 +
        sale_price * RESALE_PLATFORM_FEE_PERCENT / 100 then
      .error .InsufficientRoyaltyPayment
    else .ok (transferApply s license license_id to_addr sale_price)

/-- Entry point `withdraw_royalties`, `license_nft.rs` lines 332-351:
zero the withdrawable balance, then transfer it out. -/
def withdraw_royalties (s : State) (caller : Nat) : Except Error (State × List Event) :=
  if s.creator_royalty_earnings caller = 0 then .error .NoRoyaltiesToWithdraw
  else
    .ok ({ s with creator_royalty_earnings := updf s.creator_royalty_earnings caller 0 },
         [Event.zeroEarnings caller,
          Event.tokenTransfer caller (s.creator_royalty_earnings caller)])

/-- Loop body accumulation of `get_licenses_by_owner`, `license_nft.rs`
lines 373-389, for loop indices `0..n`. -/
def licensesByOwnerUpTo (s : State) (owner : Nat) : Nat → List Nat
  | 0 => []
  | n + 1 =>
    licensesByOwnerUpTo s owner n ++
      (match s.owner_license_at owner n with
       | some id =>
         if 0 < id then
           match s.licenses id with
           | some license => if license.current_owner = owner then [id] else []
           | none => []
         else []
       | none => [])

/-- View `get_licenses_by_owner`, `license_nft.rs` lines 373-389. -/
def get_licenses_by_owner (s : State) (owner : Nat) : List Nat :=
  licensesByOwnerUpTo s owner (s.owner_license_count owner)

/-- Loop body accumulation of `get_licenses_by_sample`,
`license_nft.rs` lines 392-401. -/
def licensesBySampleUpTo (s : State) (sample_id : Nat) : Nat → List Nat
  | 0 => []
  | n + 1 =>
    licensesBySampleUpTo s sample_id n ++
      (match s.sample_license_at sample_id n with
       | some id => [id]
       | none => [])

/-- View `get_licenses_by_sample`, `license_nft.rs` lines 392-401. -/
def get_licenses_by_sample (s : State) (sample_id : Nat) : List Nat :=
  licensesBySampleUpTo s sample_id (s.sample_license_count sample_id)

/-- View `has_license`, `license_nft.rs` lines 409-411. -/
def has_license (s : State) (owner sample_id license_type : Nat) : Bool :=
  s.user_has_license_type owner sample_id license_type

/-- View `is_exclusively_licensed`, `license_nft.rs` lines 424-426. -/
def is_exclusively_licensed (s : State) (sample_id : Nat) : Bool :=
  s.sample_has_exclusive sample_id

/-- View `get_exclusive_holder`, `license_nft.rs` lines 429-435. -/
def get_exclusive_holder (s : State) (sample_id : Nat) : Option Nat :=
  if s.sample_has_exclusive sample_id then s.sample_exclusive_holder sample_id
  else none

/-- One call to a state-mutating entry point together with its
environment data (caller, attached value, block time). -/
inductive Op
  | setMarketplace (caller m : Nat)
  | mint (caller timestamp sample_id license_type buyer original_creator
      purchase_price : Nat)
  | transfer (caller attached_value license_id to_addr sale_price : Nat)
  | withdraw (caller : Nat)
deriving DecidableEq

/-- Transaction semantics of one call: on success the new state, on
revert the unchanged pre-state. -/
def applyOp (s : State) : Op → State
  | .setMarketplace c m =>
    match set_marketplace s c m with
    | .ok s' => s'
    | .error _ => s
  | .mint c ts sid lt b oc p =>
    match mint_license s c ts sid lt b oc p with
    | .ok (s', _) => s'
    | .error _ => s
  | .transfer c av lid t sp =>
    match transfer_license s c av lid t sp with
    | .ok (s', _) => s'
    | .error _ => s
  | .withdraw c =>
    match withdraw_royalties s c with
    | .ok (s', _) => s'
    | .error _ => s

/-- Run a sequence of calls. -/
def runTrace (s : State) : List Op → State
  | [] => s
  | op :: ops => runTrace (applyOp s op) ops

/-- Amount paid out to each account by one call; nonzero only for a
successful `withdraw_royalties`. -/
def payout (s : State) (op : Op) (a : Nat) : Nat :=
  match op with
  | .withdraw c =>
    match withdraw_royalties s c with
    | .ok _ => if a = c then s.creator_royalty_earnings c else 0
    | .error _ => 0
  | _ => 0

/-- Total amount ever paid out to an account by `withdraw_royalties`
along a trace. -/
def totalWithdrawn (s : State) (ops : List Op) (a : Nat) : Nat :=
  match ops with
  | [] => 0
  | op :: rest => payout s op a + totalWithdrawn (applyOp s op) rest a

/-- A state is reachable when some trace of calls from a freshly
initialized contract produces it. -/
def Reachable (s : State) : Prop :=
  ∃ admin ops, s = runTrace (initState admin) ops

/-- A call is duplicate-safe when, if it is a transfer of an existing
license, its recipient does not already hold an active license of the
transferred license's type for its sample (as recorded by the
`user_has_license_type` guard).  `transfer_license` does not itself
enforce this. -/
def opOkForDup (s : State) : Op → Bool
  | .transfer _ _ lid t _ =>
    match s.licenses lid with
    | some l => !(s.user_has_license_type t l.sample_id l.license_type.to_u8)
    | none => true
  | _ => true

/-- Every call of the trace is duplicate-safe in the state it runs in. -/
def dupSafeTrace (s : State) : List Op → Bool
  | [] => true
  | op :: rest => opOkForDup s op && dupSafeTrace (applyOp s op) rest

/-- The outgoing token transfers of an event trace, in order. -/
def tokenTransfersOf (evs : List Event) : List (Nat × Nat) :=
  evs.filterMap fun e =>
    match e with
    | .tokenTransfer r amt => some (r, amt)
    | _ => none

/-! Basic lemmas about the mapping-update helpers. -/

theorem updf_self {α : Type} (f : Nat → α) (k : Nat) (v : α) : updf f k v k = v := by
  simp [updf]

theorem updf_ne {α : Type} (f : Nat → α) (k : Nat) (v : α) {x : Nat} (h : x ≠ k) :
    updf f k v x = f x := by
  simp [updf, h]

theorem updf2_self {α : Type} (f : Nat → Nat → α) (k1 k2 : Nat) (v : α) :
    updf2 f k1 k2 v k1 k2 = v := by
  simp [updf2]

theorem updf2_ne {α : Type} (f : Nat → Nat → α) (k1 k2 : Nat) (v : α) {x y : Nat}
    (h : ¬(x = k1 ∧ y = k2)) : updf2 f k1 k2 v x y = f x y := by
  simp [updf2, h]

theorem updf3_self {α : Type} (f : Nat → Nat → Nat → α) (k1 k2 k3 : Nat) (v : α) :
    updf3 f k1 k2 k3 v k1 k2 k3 = v := by
  simp [updf3]

theorem updf3_ne {α : Type} (f : Nat → Nat → Nat → α) (k1 k2 k3 : Nat) (v : α)
    {x y z : Nat} (h : ¬(x = k1 ∧ y = k2 ∧ z = k3)) :
    updf3 f k1 k2 k3 v x y z = f x y z := by
  simp [updf3, h]

/-! Lemmas about the license-type codec. -/

theorem LicenseType.to_u8_from_u8 {k : Nat} {t : LicenseType}
    (h : LicenseType.from_u8 k = some t) : t.to_u8 = k := by
  match k with
  | 0 => simp [from_u8] at h; subst h; rfl
  | 1 => simp [from_u8] at h; subst h; rfl
  | 2 => simp [from_u8] at h; subst h; rfl
  | 3 => simp [from_u8] at h; subst h; rfl
  | n + 4 => simp [from_u8] at h

theorem LicenseType.to_u8_eq_excl_iff (t : LicenseType) :
    t.to_u8 = LicenseType.Exclusive.to_u8 ↔ t = .Exclusive := by
  cases t <;> simp [to_u8]

/-! Row views of two-key mapping updates. -/

theorem updf2_row_self {α : Type} (f : Nat → Nat → α) (k1 k2 : Nat) (v : α) :
    updf2 f k1 k2 v k1 = updf (f k1) k2 v := by
  funext y
  simp [updf2, updf]

theorem updf2_row_ne {α : Type} (f : Nat → Nat → α) (k1 k2 : Nat) (v : α) {x : Nat}
    (h : x ≠ k1) : updf2 f k1 k2 v x = f x := by
  funext y
  simp [updf2, h]

/-! Occurrence counting in an owner index. -/

/-- Number of slots below the bound holding the given license id. -/
def occUpTo (f : Nat → Option Nat) (id : Nat) : Nat → Nat
  | 0 => 0
  | n + 1 => occUpTo f id n + (if f n = some id then 1 else 0)

/-- Number of live slots of an owner's index holding the given
license id. -/
def occCount (s : State) (a id : Nat) : Nat :=
  occUpTo (s.owner_license_at a) id (s.owner_license_count a)

theorem occUpTo_congr {f g : Nat → Option Nat} {id n : Nat}
    (h : ∀ i, i < n → f i = g i) : occUpTo f id n = occUpTo g id n := by
  induction n with
  | zero => rfl
  | succ n ih =>
    simp only [occUpTo]
    rw [ih fun i hi => h i (Nat.lt_succ_of_lt hi), h n (Nat.lt_succ_self n)]

theorem occUpTo_updf_ge {f : Nat → Option Nat} {id n k : Nat} (v : Option Nat)
    (h : n ≤ k) : occUpTo (updf f k v) id n = occUpTo f id n :=
  occUpTo_congr fun _ hi => updf_ne f k v (Nat.ne_of_lt (Nat.lt_of_lt_of_le hi h))

theorem occUpTo_updf_append {f : Nat → Option Nat} {id n : Nat} (v : Option Nat) :
    occUpTo (updf f n v) id (n + 1) =
      occUpTo f id n + (if v = some id then 1 else 0) := by
  simp only [occUpTo]
  rw [occUpTo_updf_ge v (Nat.le_refl n), updf_self]

theorem occUpTo_updf_hit {f : Nat → Option Nat} {id n k : Nat} {v : Option Nat}
    (hk : k < n) (hf : f k = some id) (hv : v ≠ some id) :
    occUpTo f id n = occUpTo (updf f k v) id n + 1 := by
  induction n with
  | zero => exact absurd hk (Nat.not_lt_zero k)
  | succ n ih =>
    rcases Nat.lt_succ_iff_lt_or_eq.mp hk with h | h
    · simp only [occUpTo]
      rw [ih h, updf_ne f k v (Nat.ne_of_gt h)]
      omega
    · subst h
      simp only [occUpTo]
      rw [occUpTo_updf_ge v (Nat.le_refl k), updf_self, hf]
      simp [hv]

theorem occUpTo_eq_zero_of {f : Nat → Option Nat} {id n : Nat}
    (h : ∀ i, i < n → f i ≠ some id) : occUpTo f id n = 0 := by
  induction n with
  | zero => rfl
  | succ n ih =>
    simp only [occUpTo]
    rw [ih fun i hi => h i (Nat.lt_succ_of_lt hi), if_neg (h n (Nat.lt_succ_self n))]

theorem occUpTo_updf_noc {f : Nat → Option Nat} {id k : Nat} {v : Option Nat}
    (h1 : f k ≠ some id) (h2 : v ≠ some id) (n : Nat) :
    occUpTo (updf f k v) id n = occUpTo f id n := by
  induction n with
  | zero => rfl
  | succ n ih =>
    simp only [occUpTo, ih]
    by_cases hk : n = k
    · subst hk
      rw [updf_self, if_neg h1, if_neg h2]
    · rw [updf_ne f k v hk]

theorem findSlot_some_of {f : Nat → Option Nat} {id n i : Nat}
    (h : findSlot f id n = some i) : i < n ∧ f i = some id := by
  induction n with
  | zero => cases h
  | succ n ih =>
    simp only [findSlot] at h
    rcases hfs : findSlot f id n with _ | j
    · rw [hfs] at h
      by_cases hc : f n = some id
      · rw [if_pos hc] at h
        cases h
        exact ⟨Nat.lt_succ_self _, hc⟩
      · rw [if_neg hc] at h
        cases h
    · rw [hfs] at h
      cases h
      obtain ⟨h1, h2⟩ := ih hfs
      exact ⟨Nat.lt_succ_of_lt h1, h2⟩

theorem findSlot_none_iff {f : Nat → Option Nat} {id n : Nat} :
    findSlot f id n = none ↔ ∀ i, i < n → f i ≠ some id := by
  induction n with
  | zero => simp [findSlot]
  | succ n ih =>
    simp only [findSlot]
    constructor
    · intro h i hi
      rcases hfs : findSlot f id n with _ | j
      · rw [hfs] at h
        rcases Nat.lt_succ_iff_lt_or_eq.mp hi with h' | h'
        · exact ih.mp hfs i h'
        · subst h'
          intro hcon
          rw [if_pos hcon] at h
          cases h
      · rw [hfs] at h
        cases h
    · intro h
      rcases hfs : findSlot f id n with _ | j
      · rw [if_neg (h n (Nat.lt_succ_self n))]
      · exact absurd ((findSlot_some_of (f := f) hfs).2)
          (h j (Nat.lt_succ_of_lt (findSlot_some_of (f := f) hfs).1))

/-! Success characterizations of the entry points. -/

theorem set_marketplace_ok {s : State} {c m : Nat} {s' : State}
    (h : set_marketplace s c m = .ok s') :
    c = s.admin ∧ s' = { s with marketplace := some m } := by
  unfold set_marketplace at h
  split at h
  · cases h
  next hc =>
    cases h
    exact ⟨Decidable.not_not.mp hc, rfl⟩

theorem mint_license_ok {s : State} {c ts sid ltv b oc p : Nat} {r : State × Nat}
    (h : mint_license s c ts sid ltv b oc p = .ok r) :
    ∃ lt, s.marketplace = some c ∧ LicenseType.from_u8 ltv = some lt ∧
      s.sample_has_exclusive sid = false ∧ s.user_has_license_type b sid ltv = false ∧
      r = mintApply s ts sid ltv b oc p lt := by
  unfold mint_license at h
  split at h
  · cases h
  next mk heq =>
    split at h
    · cases h
    next hc =>
      split at h
      · cases h
      next lt hlt =>
        split at h
        · cases h
        next hex =>
          split at h
          · cases h
          next hdup =>
            cases h
            refine ⟨lt, ?_, hlt, ?_, ?_, rfl⟩
            · rw [heq, Decidable.not_not.mp hc]
            · simpa using hex
            · simpa using hdup

theorem mint_license_ok_intro {s : State} {c ltv : Nat} {lt : LicenseType}
    (ts sid b oc p : Nat)
    (hm : s.marketplace = some c) (hlt : LicenseType.from_u8 ltv = some lt)
    (hex : s.sample_has_exclusive sid = false)
    (hdup : s.user_has_license_type b sid ltv = false) :
    mint_license s c ts sid ltv b oc p = .ok (mintApply s ts sid ltv b oc p lt) := by
  unfold mint_license
  rw [hm, hlt]
  simp [hex, hdup]

theorem transfer_license_ok {s : State} {c av lid t sp : Nat} {r : State × List Event}
    (h : transfer_license s c av lid t sp = .ok r) :
    ∃ l, s.licenses lid = some l ∧ l.current_owner = c ∧ l.is_active = true ∧
      l.license_type.to_u8 ≠ LicenseType.Exclusive.to_u8 ∧
      sp + sp * CREATOR_ROYALTY_PERCENT / 100 + sp * RESALE_PLATFORM_FEE_PERCENT / 100 ≤ av ∧
      r = transferApply s l lid t sp := by
  unfold transfer_license at h
  split at h
  · cases h
  next l hl =>
    split at h
    · cases h
    next hown =>
      split at h
      · cases h
      next hact =>
        split at h
        · cases h
        next hexcl =>
          split at h
          · cases h
          next hpay =>
            cases h
            exact ⟨l, hl, Decidable.not_not.mp hown,
              by simpa using hact, hexcl, Nat.le_of_not_lt hpay, rfl⟩

theorem transfer_license_ok_intro {s : State} {c v lid t sp : Nat}
    {l : LicenseMetadata}
    (hl : s.licenses lid = some l) (hown : l.current_owner = c)
    (hact : l.is_active = true)
    (hexcl : l.license_type.to_u8 ≠ LicenseType.Exclusive.to_u8)
    (hpay : sp + sp * CREATOR_ROYALTY_PERCENT / 100 +
      sp * RESALE_PLATFORM_FEE_PERCENT / 100 ≤ v) :
    transfer_license s c v lid t sp = .ok (transferApply s l lid t sp) := by
  unfold transfer_license
  rw [hl]
  simp [hown, hact, hexcl, Nat.not_lt.mpr hpay]

theorem withdraw_royalties_ok {s : State} {c : Nat} {r : State × List Event}
    (h : withdraw_royalties s c = .ok r) :
    s.creator_royalty_earnings c ≠ 0 ∧
      r = ({ s with creator_royalty_earnings := updf s.creator_royalty_earnings c 0 },
        [Event.zeroEarnings c, Event.tokenTransfer c (s.creator_royalty_earnings c)]) := by
  unfold withdraw_royalties at h
  split at h
  · cases h
  next hz =>
    cases h
    exact ⟨hz, rfl⟩

theorem withdraw_royalties_ok_intro {s : State} {c : Nat}
    (h : s.creator_royalty_earnings c ≠ 0) :
    withdraw_royalties s c =
      .ok ({ s with creator_royalty_earnings := updf s.creator_royalty_earnings c 0 },
        [Event.zeroEarnings c, Event.tokenTransfer c (s.creator_royalty_earnings c)]) := by
  unfold withdraw_royalties
  simp [h]

/-! Explicit forms of the success branches. -/

theorem mintApply_nonexcl {lt : LicenseType}
    (h : lt.to_u8 ≠ LicenseType.Exclusive.to_u8)
    (s : State) (ts sid ltv b oc p : Nat) :
    mintApply s ts sid ltv b oc p lt =
      ({ s with
          license_count := s.license_count + 1
          licenses := updf s.licenses (s.license_count + 1)
            (some (mintedLicense s ts sid b oc p lt))
          sample_license_at := updf2 s.sample_license_at sid
            (s.sample_license_count sid) (some (s.license_count + 1))
          sample_license_count := updf s.sample_license_count sid
            (s.sample_license_count sid + 1)
          owner_license_at := updf2 s.owner_license_at b
            (s.owner_license_count b) (some (s.license_count + 1))
          owner_license_count := updf s.owner_license_count b
            (s.owner_license_count b + 1)
          user_sample_license := updf3 s.user_sample_license b sid ltv
            (s.license_count + 1)
          user_has_license_type := updf3 s.user_has_license_type b sid ltv true },
        s.license_count + 1) := by
  simp only [mintApply, if_neg h]

theorem mintApply_excl {lt : LicenseType}
    (h : lt.to_u8 = LicenseType.Exclusive.to_u8)
    (s : State) (ts sid ltv b oc p : Nat) :
    mintApply s ts sid ltv b oc p lt =
      ({ s with
          license_count := s.license_count + 1
          licenses := updf s.licenses (s.license_count + 1)
            (some (mintedLicense s ts sid b oc p lt))
          sample_license_at := updf2 s.sample_license_at sid
            (s.sample_license_count sid) (some (s.license_count + 1))
          sample_license_count := updf s.sample_license_count sid
            (s.sample_license_count sid + 1)
          owner_license_at := updf2 s.owner_license_at b
            (s.owner_license_count b) (some (s.license_count + 1))
          owner_license_count := updf s.owner_license_count b
            (s.owner_license_count b + 1)
          user_sample_license := updf3 s.user_sample_license b sid ltv
            (s.license_count + 1)
          user_has_license_type := updf3 s.user_has_license_type b sid ltv true
          sample_has_exclusive := updf s.sample_has_exclusive sid true
          sample_exclusive_holder := updf s.sample_exclusive_holder sid (some b) },
        s.license_count + 1) := by
  simp only [mintApply, if_pos h]

theorem transferApply_found {s : State} {l : LicenseMetadata} {lid i : Nat}
    (t sp : Nat)
    (hf : findSlot (s.owner_license_at l.current_owner) lid
      (s.owner_license_count l.current_owner) = some i) :
    transferApply s l lid t sp =
      ({ s with
          licenses := updf s.licenses lid
            (some { l with current_owner := t, transfer_count := l.transfer_count + 1 })
          owner_license_at := updf2
            (updf2 s.owner_license_at l.current_owner i (some 0)) t
            (s.owner_license_count t) (some lid)
          owner_license_count := updf s.owner_license_count t
            (s.owner_license_count t + 1)
          user_has_license_type := updf3
            (updf3 s.user_has_license_type l.current_owner l.sample_id
              l.license_type.to_u8 false)
            t l.sample_id l.license_type.to_u8 true
          user_sample_license := updf3
            (updf3 s.user_sample_license l.current_owner l.sample_id
              l.license_type.to_u8 0)
            t l.sample_id l.license_type.to_u8 lid
          creator_royalty_earnings := updf s.creator_royalty_earnings
            l.original_creator
            (s.creator_royalty_earnings l.original_creator +
              sp * CREATOR_ROYALTY_PERCENT / 100)
          creator_total_royalties := updf s.creator_total_royalties
            l.original_creator
            (s.creator_total_royalties l.original_creator +
              sp * CREATOR_ROYALTY_PERCENT / 100) },
        [Event.persistLicense lid
          { l with current_owner := t, transfer_count := l.transfer_count + 1 },
         Event.tombstoneOwnerSlot l.current_owner i,
         Event.appendOwnerIndex t (s.owner_license_count t) lid,
         Event.clearGuard l.current_owner l.sample_id l.license_type.to_u8,
         Event.setGuard t l.sample_id l.license_type.to_u8 lid,
         Event.tokenTransfer l.current_owner sp,
         Event.creditRoyalty l.original_creator (sp * CREATOR_ROYALTY_PERCENT / 100),
         Event.tokenTransfer s.admin (sp * RESALE_PLATFORM_FEE_PERCENT / 100)]) := by
  simp only [transferApply, remove_from_owner_list, hf]
  rfl

theorem transferApply_notfound {s : State} {l : LicenseMetadata} {lid : Nat}
    (t sp : Nat)
    (hf : findSlot (s.owner_license_at l.current_owner) lid
      (s.owner_license_count l.current_owner) = none) :
    transferApply s l lid t sp =
      ({ s with
          licenses := updf s.licenses lid
            (some { l with current_owner := t, transfer_count := l.transfer_count + 1 })
          owner_license_at := updf2 s.owner_license_at t
            (s.owner_license_count t) (some lid)
          owner_license_count := updf s.owner_license_count t
            (s.owner_license_count t + 1)
          user_has_license_type := updf3
            (updf3 s.user_has_license_type l.current_owner l.sample_id
              l.license_type.to_u8 false)
            t l.sample_id l.license_type.to_u8 true
          user_sample_license := updf3
            (updf3 s.user_sample_license l.current_owner l.sample_id
              l.license_type.to_u8 0)
            t l.sample_id l.license_type.to_u8 lid
          creator_royalty_earnings := updf s.creator_royalty_earnings
            l.original_creator
            (s.creator_royalty_earnings l.original_creator +
              sp * CREATOR_ROYALTY_PERCENT / 100)
          creator_total_royalties := updf s.creator_total_royalties
            l.original_creator
            (s.creator_total_royalties l.original_creator +
              sp * CREATOR_ROYALTY_PERCENT / 100) },
        [Event.persistLicense lid
          { l with current_owner := t, transfer_count := l.transfer_count + 1 },
         Event.appendOwnerIndex t (s.owner_license_count t) lid,
         Event.clearGuard l.current_owner l.sample_id l.license_type.to_u8,
         Event.setGuard t l.sample_id l.license_type.to_u8 lid,
         Event.tokenTransfer l.current_owner sp,
         Event.creditRoyalty l.original_creator (sp * CREATOR_ROYALTY_PERCENT / 100),
         Event.tokenTransfer s.admin (sp * RESALE_PLATFORM_FEE_PERCENT / 100)]) := by
  simp only [transferApply, remove_from_owner_list, hf]
  rfl

/-! Field views of the success branches. -/

theorem mintedLicense_sample_id (s : State) (ts sid b oc p : Nat) (lt : LicenseType) :
    (mintedLicense s ts sid b oc p lt).sample_id = sid := rfl

theorem mintedLicense_type (s : State) (ts sid b oc p : Nat) (lt : LicenseType) :
    (mintedLicense s ts sid b oc p lt).license_type = lt := rfl

theorem mintedLicense_owner (s : State) (ts sid b oc p : Nat) (lt : LicenseType) :
    (mintedLicense s ts sid b oc p lt).current_owner = b := rfl

theorem mintedLicense_active (s : State) (ts sid b oc p : Nat) (lt : LicenseType) :
    (mintedLicense s ts sid b oc p lt).is_active = true := rfl

theorem mintApply_snd (s : State) (ts sid ltv b oc p : Nat) (lt : LicenseType) :
    (mintApply s ts sid ltv b oc p lt).2 = s.license_count + 1 := by
  simp only [mintApply]

theorem mintApply_admin (s : State) (ts sid ltv b oc p : Nat) (lt : LicenseType) :
    (mintApply s ts sid ltv b oc p lt).1.admin = s.admin := by
  simp only [mintApply]
  split <;> rfl

theorem mintApply_marketplace (s : State) (ts sid ltv b oc p : Nat) (lt : LicenseType) :
    (mintApply s ts sid ltv b oc p lt).1.marketplace = s.marketplace := by
  simp only [mintApply]
  split <;> rfl

theorem mintApply_license_count (s : State) (ts sid ltv b oc p : Nat) (lt : LicenseType) :
    (mintApply s ts sid ltv b oc p lt).1.license_count = s.license_count + 1 := by
  simp only [mintApply]
  split <;> rfl

theorem mintApply_licenses (s : State) (ts sid ltv b oc p : Nat) (lt : LicenseType) :
    (mintApply s ts sid ltv b oc p lt).1.licenses =
      updf s.licenses (s.license_count + 1)
        (some (mintedLicense s ts sid b oc p lt)) := by
  simp only [mintApply]
  split <;> rfl

theorem mintApply_owner_license_count (s : State) (ts sid ltv b oc p : Nat)
    (lt : LicenseType) :
    (mintApply s ts sid ltv b oc p lt).1.owner_license_count =
      updf s.owner_license_count b (s.owner_license_count b + 1) := by
  simp only [mintApply]
  split <;> rfl

theorem mintApply_owner_license_at (s : State) (ts sid ltv b oc p : Nat)
    (lt : LicenseType) :
    (mintApply s ts sid ltv b oc p lt).1.owner_license_at =
      updf2 s.owner_license_at b (s.owner_license_count b)
        (some (s.license_count + 1)) := by
  simp only [mintApply]
  split <;> rfl

theorem mintApply_user_has (s : State) (ts sid ltv b oc p : Nat) (lt : LicenseType) :
    (mintApply s ts sid ltv b oc p lt).1.user_has_license_type =
      updf3 s.user_has_license_type b sid ltv true := by
  simp only [mintApply]
  split <;> rfl

theorem mintApply_has_excl (s : State) (ts sid ltv b oc p : Nat) (lt : LicenseType) :
    (mintApply s ts sid ltv b oc p lt).1.sample_has_exclusive =
      if lt.to_u8 = LicenseType.Exclusive.to_u8 then
        updf s.sample_has_exclusive sid true
      else s.sample_has_exclusive := by
  simp only [mintApply]
  split <;> rfl

theorem mintApply_earnings (s : State) (ts sid ltv b oc p : Nat) (lt : LicenseType) :
    (mintApply s ts sid ltv b oc p lt).1.creator_royalty_earnings =
      s.creator_royalty_earnings := by
  simp only [mintApply]
  split <;> rfl

theorem mintApply_totals (s : State) (ts sid ltv b oc p : Nat) (lt : LicenseType) :
    (mintApply s ts sid ltv b oc p lt).1.creator_total_royalties =
      s.creator_total_royalties := by
  simp only [mintApply]
  split <;> rfl

theorem transferApply_licenses (s : State) (l : LicenseMetadata) (lid t sp : Nat) :
    (transferApply s l lid t sp).1.licenses =
      updf s.licenses lid
        (some { l with current_owner := t, transfer_count := l.transfer_count + 1 }) := by
  rcases hf : findSlot (s.owner_license_at l.current_owner) lid
    (s.owner_license_count l.current_owner) with _ | i
  · rw [transferApply_notfound t sp hf]
  · rw [transferApply_found t sp hf]

theorem transferApply_license_count (s : State) (l : LicenseMetadata) (lid t sp : Nat) :
    (transferApply s l lid t sp).1.license_count = s.license_count := by
  rcases hf : findSlot (s.owner_license_at l.current_owner) lid
    (s.owner_license_count l.current_owner) with _ | i
  · rw [transferApply_notfound t sp hf]
  · rw [transferApply_found t sp hf]

theorem transferApply_admin (s : State) (l : LicenseMetadata) (lid t sp : Nat) :
    (transferApply s l lid t sp).1.admin = s.admin := by
  rcases hf : findSlot (s.owner_license_at l.current_owner) lid
    (s.owner_license_count l.current_owner) with _ | i
  · rw [transferApply_notfound t sp hf]
  · rw [transferApply_found t sp hf]

theorem transferApply_marketplace (s : State) (l : LicenseMetadata) (lid t sp : Nat) :
    (transferApply s l lid t sp).1.marketplace = s.marketplace := by
  rcases hf : findSlot (s.owner_license_at l.current_owner) lid
    (s.owner_license_count l.current_owner) with _ | i
  · rw [transferApply_notfound t sp hf]
  · rw [transferApply_found t sp hf]

theorem transferApply_has_excl (s : State) (l : LicenseMetadata) (lid t sp : Nat) :
    (transferApply s l lid t sp).1.sample_has_exclusive = s.sample_has_exclusive := by
  rcases hf : findSlot (s.owner_license_at l.current_owner) lid
    (s.owner_license_count l.current_owner) with _ | i
  · rw [transferApply_notfound t sp hf]
  · rw [transferApply_found t sp hf]

theorem transferApply_excl_holder (s : State) (l : LicenseMetadata) (lid t sp : Nat) :
    (transferApply s l lid t sp).1.sample_exclusive_holder =
      s.sample_exclusive_holder := by
  rcases hf : findSlot (s.owner_license_at l.current_owner) lid
    (s.owner_license_count l.current_owner) with _ | i
  · rw [transferApply_notfound t sp hf]
  · rw [transferApply_found t sp hf]

theorem transferApply_owner_license_count (s : State) (l : LicenseMetadata)
    (lid t sp : Nat) :
    (transferApply s l lid t sp).1.owner_license_count =
      updf s.owner_license_count t (s.owner_license_count t + 1) := by
  rcases hf : findSlot (s.owner_license_at l.current_owner) lid
    (s.owner_license_count l.current_owner) with _ | i
  · rw [transferApply_notfound t sp hf]
  · rw [transferApply_found t sp hf]

theorem transferApply_user_has (s : State) (l : LicenseMetadata) (lid t sp : Nat) :
    (transferApply s l lid t sp).1.user_has_license_type =
      updf3 (updf3 s.user_has_license_type l.current_owner l.sample_id
        l.license_type.to_u8 false) t l.sample_id l.license_type.to_u8 true := by
  rcases hf : findSlot (s.owner_license_at l.current_owner) lid
    (s.owner_license_count l.current_owner) with _ | i
  · rw [transferApply_notfound t sp hf]
  · rw [transferApply_found t sp hf]

theorem transferApply_earnings (s : State) (l : LicenseMetadata) (lid t sp : Nat) :
    (transferApply s l lid t sp).1.creator_royalty_earnings =
      updf s.creator_royalty_earnings l.original_creator
        (s.creator_royalty_earnings l.original_creator +
          sp * CREATOR_ROYALTY_PERCENT / 100) := by
  rcases hf : findSlot (s.owner_license_at l.current_owner) lid
    (s.owner_license_count l.current_owner) with _ | i
  · rw [transferApply_notfound t sp hf]
  · rw [transferApply_found t sp hf]

theorem transferApply_totals (s : State) (l : LicenseMetadata) (lid t sp : Nat) :
    (transferApply s l lid t sp).1.creator_total_royalties =
      updf s.creator_total_royalties l.original_creator
        (s.creator_total_royalties l.original_creator +
          sp * CREATOR_ROYALTY_PERCENT / 100) := by
  rcases hf : findSlot (s.owner_license_at l.current_owner) lid
    (s.owner_license_count l.current_owner) with _ | i
  · rw [transferApply_notfound t sp hf]
  · rw [transferApply_found t sp hf]

/-! Case analyses of `applyOp`. -/

theorem applyOp_setMarketplace_cases (s : State) (c m : Nat) :
    applyOp s (.setMarketplace c m) = s ∨
    applyOp s (.setMarketplace c m) = { s with marketplace := some m } := by
  cases h : set_marketplace s c m with
  | error e => left; simp only [applyOp, h]
  | ok s' =>
    right
    obtain ⟨-, h2⟩ := set_marketplace_ok h
    simp only [applyOp, h, h2]

theorem applyOp_mint_cases (s : State) (c ts sid ltv b oc p : Nat) :
    applyOp s (.mint c ts sid ltv b oc p) = s ∨
    ∃ lt, LicenseType.from_u8 ltv = some lt ∧ s.sample_has_exclusive sid = false ∧
      s.user_has_license_type b sid ltv = false ∧
      applyOp s (.mint c ts sid ltv b oc p) = (mintApply s ts sid ltv b oc p lt).1 := by
  cases h : mint_license s c ts sid ltv b oc p with
  | error e => left; simp only [applyOp, h]
  | ok r =>
    right
    obtain ⟨lt, _, hlt, hex, hdup, hr⟩ := mint_license_ok h
    refine ⟨lt, hlt, hex, hdup, ?_⟩
    simp only [applyOp, h]
    rw [hr]

theorem applyOp_transfer_cases (s : State) (c av lid t sp : Nat) :
    applyOp s (.transfer c av lid t sp) = s ∨
    ∃ l, s.licenses lid = some l ∧ l.current_owner = c ∧ l.is_active = true ∧
      l.license_type.to_u8 ≠ LicenseType.Exclusive.to_u8 ∧
      applyOp s (.transfer c av lid t sp) = (transferApply s l lid t sp).1 := by
  cases h : transfer_license s c av lid t sp with
  | error e => left; simp only [applyOp, h]
  | ok r =>
    right
    obtain ⟨l, hl, hown, hact, hexcl, -, hr⟩ := transfer_license_ok h
    refine ⟨l, hl, hown, hact, hexcl, ?_⟩
    simp only [applyOp, h]
    rw [hr]

theorem applyOp_withdraw_cases (s : State) (c : Nat) :
    applyOp s (.withdraw c) = s ∨
    applyOp s (.withdraw c) =
      { s with creator_royalty_earnings := updf s.creator_royalty_earnings c 0 } := by
  cases h : withdraw_royalties s c with
  | error e => left; simp only [applyOp, h]
  | ok r =>
    right
    obtain ⟨-, hr⟩ := withdraw_royalties_ok h
    simp only [applyOp, h]
    rw [hr]

/-! Ledger invariants. -/

/-- License ids above the running counter are unallocated. -/
def FreshInv (s : State) : Prop :=
  ∀ id, s.license_count < id → s.licenses id = none

/-- License id 0 is never allocated (ids start at 1). -/
def ZeroIdInv (s : State) : Prop :=
  s.licenses 0 = none

/-- The per-sample exclusivity flag is set exactly when an exclusive
license has been minted for the sample. -/
def ExclFlagInv (s : State) : Prop :=
  ∀ sid, s.sample_has_exclusive sid = true ↔
    ∃ id l, s.licenses id = some l ∧ l.sample_id = sid ∧
      l.license_type = LicenseType.Exclusive

/-- At most one exclusive license exists per sample, among all
licenses ever stored. -/
def AtMostOneExclusive (s : State) : Prop :=
  ∀ i j li lj, s.licenses i = some li → s.licenses j = some lj →
    li.sample_id = lj.sample_id → li.license_type = LicenseType.Exclusive →
    lj.license_type = LicenseType.Exclusive → i = j

/-- When the duplicate guard is set, the account indeed owns an active
license of that type for that sample. -/
def GuardFwdInv (s : State) : Prop :=
  ∀ a sid ltv, s.user_has_license_type a sid ltv = true →
    ∃ id l, s.licenses id = some l ∧ l.current_owner = a ∧ l.sample_id = sid ∧
      l.license_type.to_u8 = ltv ∧ l.is_active = true

/-- Owner-index slots hold either the tombstone 0 or an allocated id. -/
def SlotInv (s : State) : Prop :=
  ∀ a i v, s.owner_license_at a i = some v → v = 0 ∨ ∃ l, s.licenses v = some l

/-- Every allocated license occurs exactly once in the owner index of
its current owner, and in no other owner index. -/
def OwnerIdxInv (s : State) : Prop :=
  ∀ a id l, s.licenses id = some l →
    occCount s a id = if l.current_owner = a then 1 else 0

/-- Bundle of all unconditional ledger invariants. -/
def Inv (s : State) : Prop :=
  FreshInv s ∧ ZeroIdInv s ∧ ExclFlagInv s ∧ AtMostOneExclusive s ∧
    GuardFwdInv s ∧ SlotInv s ∧ OwnerIdxInv s

theorem inv_initState (admin : Nat) : Inv (initState admin) := by
  refine ⟨?_, rfl, ?_, ?_, ?_, ?_, ?_⟩
  · intro id _
    rfl
  · intro sid
    simp [initState]
  · intro i j li lj h
    simp [initState] at h
  · intro a sid ltv h
    simp [initState] at h
  · intro a i v h
    simp [initState] at h
  · intro a id l h
    simp [initState] at h

theorem inv_set_marketplace {s : State} (h : Inv s) (c m : Nat) :
    Inv (applyOp s (.setMarketplace c m)) := by
  rcases applyOp_setMarketplace_cases s c m with heq | heq <;> rw [heq]
  · exact h
  · exact h

theorem inv_withdraw {s : State} (h : Inv s) (c : Nat) :
    Inv (applyOp s (.withdraw c)) := by
  rcases applyOp_withdraw_cases s c with heq | heq <;> rw [heq]
  · exact h
  · exact h

theorem inv_mint {s : State} (hInv : Inv s) (c ts sid ltv b oc p : Nat) :
    Inv (applyOp s (.mint c ts sid ltv b oc p)) := by
  obtain ⟨hF, hZ, hE, hX, hG, hS, hO⟩ := hInv
  rcases applyOp_mint_cases s c ts sid ltv b oc p with heq | ⟨lt, hlt, hex, hdup, heq⟩
  · rw [heq]
    exact ⟨hF, hZ, hE, hX, hG, hS, hO⟩
  · rw [heq]
    have hto : lt.to_u8 = ltv := LicenseType.to_u8_from_u8 hlt
    have hfresh : s.licenses (s.license_count + 1) = none := hF _ (Nat.lt_succ_self _)
    refine ⟨?_, ?_, ?_, ?_, ?_, ?_, ?_⟩
    · -- FreshInv
      intro id hid
      rw [mintApply_license_count] at hid
      rw [mintApply_licenses, updf_ne _ _ _ (by omega)]
      exact hF id (by omega)
    · -- ZeroIdInv
      show (mintApply s ts sid ltv b oc p lt).1.licenses 0 = none
      rw [mintApply_licenses, updf_ne _ _ _ (by omega)]
      exact hZ
    · -- ExclFlagInv
      intro sid'
      rw [mintApply_has_excl, mintApply_licenses]
      by_cases hEx : lt.to_u8 = LicenseType.Exclusive.to_u8
      · rw [if_pos hEx]
        have hltE : lt = LicenseType.Exclusive := (LicenseType.to_u8_eq_excl_iff lt).mp hEx
        by_cases hsid : sid' = sid
        · subst hsid
          rw [updf_self]
          constructor
          · intro _
            exact ⟨s.license_count + 1, mintedLicense s ts sid' b oc p lt,
              updf_self _ _ _, rfl, hltE⟩
          · intro _
            rfl
        · rw [updf_ne _ _ _ hsid]
          constructor
          · intro hflag
            obtain ⟨id, l, hl, hsm, hexc⟩ := (hE sid').mp hflag
            have hne : id ≠ s.license_count + 1 := by
              intro hcon
              rw [hcon, hfresh] at hl
              cases hl
            exact ⟨id, l, by rw [updf_ne _ _ _ hne]; exact hl, hsm, hexc⟩
          · rintro ⟨id, l, hl, hsm, hexc⟩
            by_cases hne : id = s.license_count + 1
            · rw [hne, updf_self] at hl
              cases hl
              rw [mintedLicense_sample_id] at hsm
              exact absurd hsm.symm hsid
            · rw [updf_ne _ _ _ hne] at hl
              exact (hE sid').mpr ⟨id, l, hl, hsm, hexc⟩
      · rw [if_neg hEx]
        constructor
        · intro hflag
          obtain ⟨id, l, hl, hsm, hexc⟩ := (hE sid').mp hflag
          have hne : id ≠ s.license_count + 1 := by
            intro hcon
            rw [hcon, hfresh] at hl
            cases hl
          exact ⟨id, l, by rw [updf_ne _ _ _ hne]; exact hl, hsm, hexc⟩
        · rintro ⟨id, l, hl, hsm, hexc⟩
          by_cases hne : id = s.license_count + 1
          · rw [hne, updf_self] at hl
            cases hl
            exact absurd ((LicenseType.to_u8_eq_excl_iff lt).mpr hexc) hEx
          · rw [updf_ne _ _ _ hne] at hl
            exact (hE sid').mpr ⟨id, l, hl, hsm, hexc⟩
    · -- AtMostOneExclusive
      intro i j li lj hi hj hsm hei hej
      rw [mintApply_licenses] at hi hj
      have key : ∀ k lk, updf s.licenses (s.license_count + 1)
          (some (mintedLicense s ts sid b oc p lt)) k = some lk →
          lk.license_type = LicenseType.Exclusive →
          k ≠ s.license_count + 1 → s.licenses k = some lk := by
        intro k lk hk _ hne
        rwa [updf_ne _ _ _ hne] at hk
      by_cases hiN : i = s.license_count + 1 <;> by_cases hjN : j = s.license_count + 1
      · rw [hiN, hjN]
      · -- i is the new license, j an old one
        rw [hiN, updf_self] at hi
        cases hi
        rw [mintedLicense_sample_id] at hsm
        have hje := key j lj hj hej hjN
        have hflag : s.sample_has_exclusive sid = true :=
          (hE sid).mpr ⟨j, lj, hje, hsm.symm, hej⟩
        rw [hex] at hflag
        cases hflag
      · rw [hjN, updf_self] at hj
        cases hj
        rw [mintedLicense_sample_id] at hsm
        have hie := key i li hi hei hiN
        have hflag : s.sample_has_exclusive sid = true :=
          (hE sid).mpr ⟨i, li, hie, hsm, hei⟩
        rw [hex] at hflag
        cases hflag
      · exact hX i j li lj (key i li hi hei hiN) (key j lj hj hej hjN) hsm hei hej
    · -- GuardFwdInv
      intro a sid' ltv' hguard
      rw [mintApply_user_has] at hguard
      by_cases hkey : a = b ∧ sid' = sid ∧ ltv' = ltv
      · obtain ⟨ha, hsid', hltv'⟩ := hkey
        refine ⟨s.license_count + 1, mintedLicense s ts sid b oc p lt,
          by rw [mintApply_licenses]; exact updf_self _ _ _,
          by rw [mintedLicense_owner, ha],
          by rw [mintedLicense_sample_id, hsid'],
          by rw [mintedLicense_type, hto, hltv'],
          rfl⟩
      · rw [updf3_ne _ _ _ _ _ hkey] at hguard
        obtain ⟨id, l, hl, ho, hsm, hlt', hact⟩ := hG a sid' ltv' hguard
        have hne : id ≠ s.license_count + 1 := by
          intro hcon
          rw [hcon, hfresh] at hl
          cases hl
        exact ⟨id, l, by rw [mintApply_licenses, updf_ne _ _ _ hne]; exact hl,
          ho, hsm, hlt', hact⟩
    · -- SlotInv
      intro a i v hslot
      rw [mintApply_owner_license_at] at hslot
      by_cases hkey : a = b ∧ i = s.owner_license_count b
      · rw [hkey.1, hkey.2, updf2_self] at hslot
        cases hslot
        right
        exact ⟨mintedLicense s ts sid b oc p lt,
          by rw [mintApply_licenses]; exact updf_self _ _ _⟩
      · rw [updf2_ne _ _ _ _ hkey] at hslot
        rcases hS a i v hslot with hv | ⟨w, hw⟩
        · exact Or.inl hv
        · right
          have hne : v ≠ s.license_count + 1 := by
            intro hcon
            rw [hcon, hfresh] at hw
            cases hw
          exact ⟨w, by rw [mintApply_licenses, updf_ne _ _ _ hne]; exact hw⟩
    · -- OwnerIdxInv
      intro a id l hl
      rw [mintApply_licenses] at hl
      have hrow : (mintApply s ts sid ltv b oc p lt).1.owner_license_at a =
          (if a = b then updf (s.owner_license_at b) (s.owner_license_count b)
            (some (s.license_count + 1)) else s.owner_license_at a) := by
        rw [mintApply_owner_license_at]
        by_cases hab : a = b
        · rw [if_pos hab, hab, updf2_row_self]
        · rw [if_neg hab, updf2_row_ne _ _ _ _ hab]
      have hcnt : (mintApply s ts sid ltv b oc p lt).1.owner_license_count a =
          (if a = b then s.owner_license_count b + 1 else s.owner_license_count a) := by
        rw [mintApply_owner_license_count]
        by_cases hab : a = b
        · rw [if_pos hab, hab, updf_self]
        · rw [if_neg hab, updf_ne _ _ _ hab]
      have hNoNew : ∀ x, occUpTo (s.owner_license_at x) (s.license_count + 1)
          (s.owner_license_count x) = 0 := by
        intro x
        refine occUpTo_eq_zero_of fun i hi hcon => ?_
        rcases hS x i _ hcon with hv | ⟨w, hw⟩
        · omega
        · rw [hfresh] at hw
          cases hw
      unfold occCount
      rw [hrow, hcnt]
      by_cases hid : id = s.license_count + 1
      · subst hid
        rw [updf_self] at hl
        cases hl
        by_cases hab : a = b
        · subst hab
          rw [if_pos rfl, if_pos rfl, mintedLicense_owner, if_pos rfl,
            occUpTo_updf_append, hNoNew a]
          simp
        · rw [if_neg hab, if_neg hab, mintedLicense_owner,
            if_neg fun hcon => hab hcon.symm]
          exact hNoNew a
      · rw [updf_ne _ _ _ hid] at hl
        have hresult := hO a id l hl
        unfold occCount at hresult
        by_cases hab : a = b
        · subst hab
          rw [if_pos rfl, if_pos rfl, occUpTo_updf_append,
            if_neg fun hcon => hid (Option.some.inj hcon).symm, Nat.add_zero]
          exact hresult
        · rw [if_neg hab, if_neg hab]
          exact hresult

theorem inv_transfer {s : State} (hInv : Inv s) (c av lid t sp : Nat) :
    Inv (applyOp s (.transfer c av lid t sp)) := by
  obtain ⟨hF, hZ, hE, hX, hG, hS, hO⟩ := hInv
  rcases applyOp_transfer_cases s c av lid t sp with heq | ⟨l, hl, hown, hact, hexcl, heq⟩
  · rw [heq]
    exact ⟨hF, hZ, hE, hX, hG, hS, hO⟩
  · rw [heq]
    have hlid0 : lid ≠ 0 := by
      intro hcon
      rw [hcon, hZ] at hl
      cases hl
    have hocc_prev : occUpTo (s.owner_license_at l.current_owner) lid
        (s.owner_license_count l.current_owner) = 1 := by
      have h1 := hO l.current_owner lid l hl
      unfold occCount at h1
      rwa [if_pos rfl] at h1
    have hocc_other : ∀ a, a ≠ l.current_owner →
        occUpTo (s.owner_license_at a) lid (s.owner_license_count a) = 0 := by
      intro a ha
      have h1 := hO a lid l hl
      unfold occCount at h1
      rwa [if_neg fun hcon => ha hcon.symm] at h1
    obtain ⟨i0, hfs⟩ : ∃ i0, findSlot (s.owner_license_at l.current_owner) lid
        (s.owner_license_count l.current_owner) = some i0 := by
      rcases hfs : findSlot (s.owner_license_at l.current_owner) lid
          (s.owner_license_count l.current_owner) with _ | i0
      · exfalso
        rw [occUpTo_eq_zero_of (findSlot_none_iff.mp hfs)] at hocc_prev
        cases hocc_prev
      · exact ⟨i0, rfl⟩
    obtain ⟨hi0lt, hi0val⟩ := findSlot_some_of hfs
    have hat : (transferApply s l lid t sp).1.owner_license_at =
        updf2 (updf2 s.owner_license_at l.current_owner i0 (some 0)) t
          (s.owner_license_count t) (some lid) := by
      rw [transferApply_found t sp hfs]
    have hsome0ne : (some 0 : Option Nat) ≠ some lid :=
      fun hcon => hlid0 (Option.some.inj hcon).symm
    have htomb_prev : occUpTo (updf (s.owner_license_at l.current_owner) i0 (some 0))
        lid (s.owner_license_count l.current_owner) = 0 := by
      have h1 := occUpTo_updf_hit (n := s.owner_license_count l.current_owner)
        hi0lt hi0val hsome0ne
      omega
    have hM1 : ∀ x, updf2 s.owner_license_at l.current_owner i0 (some 0) x =
        if x = l.current_owner then
          updf (s.owner_license_at l.current_owner) i0 (some 0)
        else s.owner_license_at x := by
      intro x
      by_cases hx : x = l.current_owner
      · rw [if_pos hx, hx, updf2_row_self]
      · rw [if_neg hx, updf2_row_ne _ _ _ _ hx]
    refine ⟨?_, ?_, ?_, ?_, ?_, ?_, ?_⟩
    · -- FreshInv
      intro id hid
      rw [transferApply_license_count] at hid
      have hne : id ≠ lid := by
        intro hcon
        rw [← hcon] at hl
        rw [hF id hid] at hl
        cases hl
      rw [transferApply_licenses, updf_ne _ _ _ hne]
      exact hF id hid
    · -- ZeroIdInv
      show (transferApply s l lid t sp).1.licenses 0 = none
      rw [transferApply_licenses, updf_ne _ _ _ fun hcon => hlid0 hcon.symm]
      exact hZ
    · -- ExclFlagInv
      intro sid'
      rw [transferApply_has_excl, transferApply_licenses]
      constructor
      · intro hflag
        obtain ⟨id, w, hw, hsm, hexc⟩ := (hE sid').mp hflag
        by_cases hne : id = lid
        · subst hne
          rw [hl] at hw
          cases hw
          exact ⟨id, { l with current_owner := t, transfer_count := l.transfer_count + 1 },
            updf_self _ _ _, hsm, hexc⟩
        · exact ⟨id, w, by rw [updf_ne _ _ _ hne]; exact hw, hsm, hexc⟩
      · rintro ⟨id, w, hw, hsm, hexc⟩
        by_cases hne : id = lid
        · subst hne
          rw [updf_self] at hw
          have hw' : w = { l with current_owner := t, transfer_count := l.transfer_count + 1 } := (Option.some.inj hw).symm
          refine (hE sid').mpr ⟨id, l, hl, ?_, ?_⟩
          · rw [hw'] at hsm
            exact hsm
          · rw [hw'] at hexc
            exact hexc
        · rw [updf_ne _ _ _ hne] at hw
          exact (hE sid').mpr ⟨id, w, hw, hsm, hexc⟩
    · -- AtMostOneExclusive
      intro i j li lj hi hj hsm hei hej
      rw [transferApply_licenses] at hi hj
      have conv : ∀ k lk, updf s.licenses lid
          (some { l with current_owner := t, transfer_count := l.transfer_count + 1 }) k =
          some lk → ∃ lk0, s.licenses k = some lk0 ∧ lk0.sample_id = lk.sample_id ∧
          lk0.license_type = lk.license_type := by
        intro k lk hk
        by_cases hkl : k = lid
        · subst hkl
          rw [updf_self] at hk
          have hk' : lk = { l with current_owner := t, transfer_count := l.transfer_count + 1 } := (Option.some.inj hk).symm
          exact ⟨l, hl, by rw [hk'], by rw [hk']⟩
        · rw [updf_ne _ _ _ hkl] at hk
          exact ⟨lk, hk, rfl, rfl⟩
      obtain ⟨li0, hli0, hsmi, hti⟩ := conv i li hi
      obtain ⟨lj0, hlj0, hsmj, htj⟩ := conv j lj hj
      exact hX i j li0 lj0 hli0 hlj0 (by rw [hsmi, hsmj, hsm]) (by rw [hti, hei])
        (by rw [htj, hej])
    · -- GuardFwdInv
      intro a sid' ltv' hguard
      rw [transferApply_user_has] at hguard
      by_cases hkt : a = t ∧ sid' = l.sample_id ∧ ltv' = l.license_type.to_u8
      · obtain ⟨ha, hs', hv'⟩ := hkt
        refine ⟨lid, { l with current_owner := t, transfer_count := l.transfer_count + 1 },
          by rw [transferApply_licenses]; exact updf_self _ _ _, ?_, ?_, ?_, ?_⟩
        · show t = a
          rw [ha]
        · show l.sample_id = sid'
          rw [hs']
        · show l.license_type.to_u8 = ltv'
          rw [hv']
        · show l.is_active = true
          exact hact
      · rw [updf3_ne _ _ _ _ _ hkt] at hguard
        by_cases hkp : a = l.current_owner ∧ sid' = l.sample_id ∧
            ltv' = l.license_type.to_u8
        · rw [hkp.1, hkp.2.1, hkp.2.2, updf3_self] at hguard
          cases hguard
        · rw [updf3_ne _ _ _ _ _ hkp] at hguard
          obtain ⟨id, w, hw, how, hsm, hv, hac⟩ := hG a sid' ltv' hguard
          by_cases hne : id = lid
          · exfalso
            subst hne
            rw [hl] at hw
            cases hw
            exact hkp ⟨how.symm, hsm.symm, hv.symm⟩
          · exact ⟨id, w, by rw [transferApply_licenses, updf_ne _ _ _ hne]; exact hw,
              how, hsm, hv, hac⟩
    · -- SlotInv
      intro a i v hslot
      rw [hat] at hslot
      by_cases hk2 : a = t ∧ i = s.owner_license_count t
      · rw [hk2.1, hk2.2, updf2_self] at hslot
        cases hslot
        right
        exact ⟨{ l with current_owner := t, transfer_count := l.transfer_count + 1 },
          by rw [transferApply_licenses]; exact updf_self _ _ _⟩
      · rw [updf2_ne _ _ _ _ hk2] at hslot
        by_cases hk1 : a = l.current_owner ∧ i = i0
        · rw [hk1.1, hk1.2, updf2_self] at hslot
          cases hslot
          exact Or.inl rfl
        · rw [updf2_ne _ _ _ _ hk1] at hslot
          rcases hS a i v hslot with hv | ⟨w, hw⟩
          · exact Or.inl hv
          · right
            by_cases hvl : v = lid
            · subst hvl
              exact ⟨{ l with current_owner := t, transfer_count := l.transfer_count + 1 },
                by rw [transferApply_licenses]; exact updf_self _ _ _⟩
            · exact ⟨w, by rw [transferApply_licenses, updf_ne _ _ _ hvl]; exact hw⟩
    · -- OwnerIdxInv
      intro a id w hw
      rw [transferApply_licenses] at hw
      unfold occCount
      rw [hat, transferApply_owner_license_count]
      by_cases hid : id = lid
      · subst hid
        rw [updf_self] at hw
        have hw' : w = { l with current_owner := t, transfer_count := l.transfer_count + 1 } := (Option.some.inj hw).symm
        have hwo : w.current_owner = t := by rw [hw']
        rw [hwo]
        by_cases hab : a = t
        · subst hab
          rw [updf_self, updf2_row_self, occUpTo_updf_append, if_pos rfl, if_pos rfl,
            hM1 a]
          by_cases htp : a = l.current_owner
          · rw [if_pos htp, htp, htomb_prev]
          · rw [if_neg htp, hocc_other a htp]
        · rw [updf_ne _ _ _ hab, updf2_row_ne _ _ _ _ hab,
            if_neg fun hcon => hab hcon.symm, hM1 a]
          by_cases hap : a = l.current_owner
          · rw [if_pos hap, hap]
            exact htomb_prev
          · rw [if_neg hap]
            exact hocc_other a hap
      · rw [updf_ne _ _ _ hid] at hw
        have hid0 : id ≠ 0 := by
          intro hcon
          rw [hcon, hZ] at hw
          cases hw
        have base := hO a id w hw
        unfold occCount at base
        have hsome_lid_ne : (some lid : Option Nat) ≠ some id :=
          fun hcon => hid (Option.some.inj hcon).symm
        have hM1occ : ∀ x n,
            occUpTo (updf2 s.owner_license_at l.current_owner i0 (some 0) x) id n =
            occUpTo (s.owner_license_at x) id n := by
          intro x n
          rw [hM1 x]
          by_cases hx : x = l.current_owner
          · rw [if_pos hx, hx]
            exact occUpTo_updf_noc (by rw [hi0val]; exact hsome_lid_ne)
              (fun hcon => hid0 (Option.some.inj hcon).symm) n
          · rw [if_neg hx]
        by_cases hab : a = t
        · subst hab
          rw [updf_self, updf2_row_self, occUpTo_updf_append, if_neg hsome_lid_ne,
            Nat.add_zero, hM1occ]
          exact base
        · rw [updf_ne _ _ _ hab, updf2_row_ne _ _ _ _ hab, hM1occ]
          exact base

/-- Every invariant of the bundle is preserved by every call. -/
theorem inv_applyOp {s : State} (h : Inv s) (op : Op) : Inv (applyOp s op) := by
  cases op with
  | setMarketplace c m => exact inv_set_marketplace h c m
  | mint c ts sid lt b oc p => exact inv_mint h c ts sid lt b oc p
  | transfer c av lid t sp => exact inv_transfer h c av lid t sp
  | withdraw c => exact inv_withdraw h c

theorem inv_runTrace {s : State} (h : Inv s) (ops : List Op) :
    Inv (runTrace s ops) := by
  induction ops generalizing s with
  | nil => exact h
  | cons op rest ih => exact ih (inv_applyOp h op)

/-- Every reachable ledger state satisfies the invariant bundle. -/
theorem reachable_inv {s : State} (h : Reachable s) : Inv s := by
  obtain ⟨admin, ops, rfl⟩ := h
  exact inv_runTrace (inv_initState admin) ops

/-! Conditional invariants holding along duplicate-safe traces. -/

/-- The duplicate guard is set exactly when the account owns an active
license of that type for that sample. -/
def GuardIffInv (s : State) : Prop :=
  ∀ a sid ltv, s.user_has_license_type a sid ltv = true ↔
    ∃ id l, s.licenses id = some l ∧ l.current_owner = a ∧ l.sample_id = sid ∧
      l.license_type.to_u8 = ltv ∧ l.is_active = true

/-- Every account holds at most one active license of a given type for
a given sample. -/
def AtMostOnePerTriple (s : State) : Prop :=
  ∀ i j li lj, s.licenses i = some li → s.licenses j = some lj →
    li.current_owner = lj.current_owner → li.sample_id = lj.sample_id →
    li.license_type.to_u8 = lj.license_type.to_u8 → li.is_active = true →
    lj.is_active = true → i = j

/-- Invariant bundle extended with the duplicate-guard properties. -/
def DInv (s : State) : Prop := Inv s ∧ GuardIffInv s ∧ AtMostOnePerTriple s

theorem dinv_initState (admin : Nat) : DInv (initState admin) := by
  refine ⟨inv_initState admin, ?_, ?_⟩
  · intro a sid ltv
    simp [initState]
  · intro i j li lj h
    simp [initState] at h

theorem dinv_applyOp {s : State} (h : DInv s) (op : Op)
    (hok : opOkForDup s op = true) : DInv (applyOp s op) := by
  obtain ⟨hInv, hIff, hTri⟩ := h
  obtain ⟨hF, hZ, hE, hX, hG, hS, hO⟩ := hInv
  refine ⟨inv_applyOp ⟨hF, hZ, hE, hX, hG, hS, hO⟩ op, ?_⟩
  cases op with
  | setMarketplace c m =>
    rcases applyOp_setMarketplace_cases s c m with heq | heq <;> rw [heq] <;>
      exact ⟨hIff, hTri⟩
  | withdraw c =>
    rcases applyOp_withdraw_cases s c with heq | heq <;> rw [heq] <;>
      exact ⟨hIff, hTri⟩
  | mint c ts sid ltv b oc p =>
    rcases applyOp_mint_cases s c ts sid ltv b oc p with heq | ⟨lt, hlt, hex, hdup, heq⟩
    · rw [heq]
      exact ⟨hIff, hTri⟩
    · rw [heq]
      have hto : lt.to_u8 = ltv := LicenseType.to_u8_from_u8 hlt
      have hfresh : s.licenses (s.license_count + 1) = none := hF _ (Nat.lt_succ_self _)
      constructor
      · -- GuardIffInv
        intro a sid' ltv'
        rw [mintApply_user_has, mintApply_licenses]
        by_cases hkey : a = b ∧ sid' = sid ∧ ltv' = ltv
        · obtain ⟨ha, hs', hv'⟩ := hkey
          rw [ha, hs', hv', updf3_self]
          constructor
          · intro _
            exact ⟨s.license_count + 1, mintedLicense s ts sid b oc p lt,
              updf_self _ _ _, rfl, rfl, hto, rfl⟩
          · intro _
            rfl
        · rw [updf3_ne _ _ _ _ _ hkey]
          constructor
          · intro hg
            obtain ⟨id, w, hw, how, hsm, hv, hac⟩ := (hIff a sid' ltv').mp hg
            have hne : id ≠ s.license_count + 1 := fun hcon => by
              rw [hcon, hfresh] at hw
              cases hw
            exact ⟨id, w, by rw [updf_ne _ _ _ hne]; exact hw, how, hsm, hv, hac⟩
          · rintro ⟨id, w, hw, how, hsm, hv, hac⟩
            by_cases hne : id = s.license_count + 1
            · rw [hne, updf_self] at hw
              have hw' : w = mintedLicense s ts sid b oc p lt := (Option.some.inj hw).symm
              exfalso
              subst hw'
              rw [mintedLicense_owner] at how
              rw [mintedLicense_sample_id] at hsm
              rw [mintedLicense_type] at hv
              exact hkey ⟨how.symm, hsm.symm, by rw [← hv, hto]⟩
            · rw [updf_ne _ _ _ hne] at hw
              exact (hIff a sid' ltv').mpr ⟨id, w, hw, how, hsm, hv, hac⟩
      · -- AtMostOnePerTriple
        intro i j li lj hi hj hoeq hseq hteq hai haj
        rw [mintApply_licenses] at hi hj
        by_cases hiN : i = s.license_count + 1 <;> by_cases hjN : j = s.license_count + 1
        · rw [hiN, hjN]
        · rw [hiN, updf_self] at hi
          have hi' : li = mintedLicense s ts sid b oc p lt := (Option.some.inj hi).symm
          rw [updf_ne _ _ _ hjN] at hj
          exfalso
          have hg : s.user_has_license_type b sid ltv = true := by
            refine (hIff b sid ltv).mpr ⟨j, lj, hj, ?_, ?_, ?_, haj⟩
            · rw [← hoeq, hi', mintedLicense_owner]
            · rw [← hseq, hi', mintedLicense_sample_id]
            · rw [← hteq, hi', mintedLicense_type, hto]
          rw [hdup] at hg
          cases hg
        · rw [hjN, updf_self] at hj
          have hj' : lj = mintedLicense s ts sid b oc p lt := (Option.some.inj hj).symm
          rw [updf_ne _ _ _ hiN] at hi
          exfalso
          have hg : s.user_has_license_type b sid ltv = true := by
            refine (hIff b sid ltv).mpr ⟨i, li, hi, ?_, ?_, ?_, hai⟩
            · rw [hoeq, hj', mintedLicense_owner]
            · rw [hseq, hj', mintedLicense_sample_id]
            · rw [hteq, hj', mintedLicense_type, hto]
          rw [hdup] at hg
          cases hg
        · rw [updf_ne _ _ _ hiN] at hi
          rw [updf_ne _ _ _ hjN] at hj
          exact hTri i j li lj hi hj hoeq hseq hteq hai haj
  | transfer c av lid t sp =>
    rcases applyOp_transfer_cases s c av lid t sp with heq | ⟨l, hl, hown, hact, hexcl, heq⟩
    · rw [heq]
      exact ⟨hIff, hTri⟩
    · rw [heq]
      have hgt : s.user_has_license_type t l.sample_id l.license_type.to_u8 = false := by
        simp only [opOkForDup, hl] at hok
        simpa using hok
      have hgp : s.user_has_license_type l.current_owner l.sample_id
          l.license_type.to_u8 = true :=
        (hIff _ _ _).mpr ⟨lid, l, hl, rfl, rfl, rfl, hact⟩
      have htp : t ≠ l.current_owner := by
        intro hcon
        rw [hcon, hgp] at hgt
        cases hgt
      constructor
      · -- GuardIffInv
        intro a sid' ltv'
        rw [transferApply_user_has, transferApply_licenses]
        by_cases hkt : a = t ∧ sid' = l.sample_id ∧ ltv' = l.license_type.to_u8
        · obtain ⟨ha, hs', hv'⟩ := hkt
          rw [ha, hs', hv', updf3_self]
          constructor
          · intro _
            exact ⟨lid, { l with current_owner := t, transfer_count := l.transfer_count + 1 },
              updf_self _ _ _, rfl, rfl, rfl, hact⟩
          · intro _
            rfl
        · rw [updf3_ne _ _ _ _ _ hkt]
          by_cases hkp : a = l.current_owner ∧ sid' = l.sample_id ∧
              ltv' = l.license_type.to_u8
          · obtain ⟨ha, hs', hv'⟩ := hkp
            rw [ha, hs', hv', updf3_self]
            constructor
            · intro hcon
              cases hcon
            · rintro ⟨id, w, hw, how, hsm, hv, hac⟩
              exfalso
              by_cases hne : id = lid
              · rw [hne, updf_self] at hw
                have hw' : w = { l with current_owner := t, transfer_count := l.transfer_count + 1 } := (Option.some.inj hw).symm
                rw [hw'] at how
                exact htp how
              · rw [updf_ne _ _ _ hne] at hw
                exact hne (hTri id lid w l hw hl how hsm hv hac hact)
          · rw [updf3_ne _ _ _ _ _ hkp]
            constructor
            · intro hg
              obtain ⟨id, w, hw, how, hsm, hv, hac⟩ := (hIff a sid' ltv').mp hg
              by_cases hne : id = lid
              · exfalso
                rw [hne, hl] at hw
                have hw' : w = l := (Option.some.inj hw).symm
                subst hw'
                exact hkp ⟨how.symm, hsm.symm, hv.symm⟩
              · exact ⟨id, w, by rw [updf_ne _ _ _ hne]; exact hw, how, hsm, hv, hac⟩
            · rintro ⟨id, w, hw, how, hsm, hv, hac⟩
              by_cases hne : id = lid
              · exfalso
                rw [hne, updf_self] at hw
                have hw' : w = { l with current_owner := t, transfer_count := l.transfer_count + 1 } := (Option.some.inj hw).symm
                subst hw'
                exact hkt ⟨how.symm, hsm.symm, hv.symm⟩
              · rw [updf_ne _ _ _ hne] at hw
                exact (hIff a sid' ltv').mpr ⟨id, w, hw, how, hsm, hv, hac⟩
      · -- AtMostOnePerTriple
        intro i j li lj hi hj hoeq hseq hteq hai haj
        rw [transferApply_licenses] at hi hj
        by_cases hiN : i = lid <;> by_cases hjN : j = lid
        · rw [hiN, hjN]
        · rw [hiN, updf_self] at hi
          have hi' : li = { l with current_owner := t, transfer_count := l.transfer_count + 1 } := (Option.some.inj hi).symm
          rw [updf_ne _ _ _ hjN] at hj
          exfalso
          have hjg : s.user_has_license_type t l.sample_id l.license_type.to_u8 = true := by
            refine (hIff t l.sample_id l.license_type.to_u8).mpr ⟨j, lj, hj, ?_, ?_, ?_, haj⟩
            · rw [← hoeq, hi']
            · rw [← hseq, hi']
            · rw [← hteq, hi']
          rw [hgt] at hjg
          cases hjg
        · rw [hjN, updf_self] at hj
          have hj' : lj = { l with current_owner := t, transfer_count := l.transfer_count + 1 } := (Option.some.inj hj).symm
          rw [updf_ne _ _ _ hiN] at hi
          exfalso
          have hig : s.user_has_license_type t l.sample_id l.license_type.to_u8 = true := by
            refine (hIff t l.sample_id l.license_type.to_u8).mpr ⟨i, li, hi, ?_, ?_, ?_, hai⟩
            · rw [hoeq, hj']
            · rw [hseq, hj']
            · rw [hteq, hj']
          rw [hgt] at hig
          cases hig
        · rw [updf_ne _ _ _ hiN] at hi
          rw [updf_ne _ _ _ hjN] at hj
          exact hTri i j li lj hi hj hoeq hseq hteq hai haj

theorem dinv_runTrace {s : State} (h : DInv s) {ops : List Op}
    (hsafe : dupSafeTrace s ops = true) : DInv (runTrace s ops) := by
  induction ops generalizing s with
  | nil => exact h
  | cons op rest ih =>
    simp only [dupSafeTrace, Bool.and_eq_true] at hsafe
    exact ih (dinv_applyOp h op hsafe.1) hsafe.2

/-! Concrete traces used as witnesses and counterexamples. -/

/-- Admin 0 wires marketplace 1; the marketplace mints Personal
licenses for sample 7 to accounts 2 and 3 (creator 4); account 2 then
transfers its license to account 3, which already holds an active
Personal license for sample 7. -/
def dupOps : List Op :=
  [Op.setMarketplace 0 1, Op.mint 1 0 7 0 2 4 10, Op.mint 1 0 7 0 3 4 10,
   Op.transfer 2 112 1 3 100]

def dupState : State := runTrace (initState 0) dupOps

/-- Continuation of `dupOps`: account 3, now holding two active
Personal licenses for sample 7, transfers one of them to account 5,
which clears the shared duplicate-guard bit. -/
def dupOps2 : List Op := dupOps ++ [Op.transfer 3 112 1 5 100]

def dupState2 : State := runTrace (initState 0) dupOps2

/-- Admin 0 wires marketplace 1; the marketplace mints an Exclusive
license for sample 9 to account 2 (creator 4). -/
def exclOps : List Op := [Op.setMarketplace 0 1, Op.mint 1 0 9 3 2 4 50]

def exclState : State := runTrace (initState 0) exclOps

/-- Admin 0 wires marketplace 1; the marketplace mints a Personal
license for sample 7 to account 2 (creator 4). -/
def mintOps : List Op := [Op.setMarketplace 0 1, Op.mint 1 0 7 0 2 4 10]

def payState : State := runTrace (initState 0) mintOps

/-- A duplicate-safe trace: mint to account 2, then transfer to the
fresh account 3. -/
def safeOps : List Op :=
  [Op.setMarketplace 0 1, Op.mint 1 0 7 0 2 4 10, Op.transfer 2 112 1 3 100]

/-- State with accrued royalties: the transfer of license 1 at sale
price 1000 credits creator 4 with 100. -/
def wdOps : List Op :=
  [Op.setMarketplace 0 1, Op.mint 1 0 7 0 2 4 10, Op.transfer 2 1120 1 3 1000]

def wdState : State := runTrace (initState 0) wdOps

/-! Claim theorems. -/

/-- C1: in every reachable ledger state, every sample carries at most
one Exclusive license among all licenses ever stored for it, and once
an Exclusive license exists for a sample, no `mint_license` call for
that sample can ever succeed again; a call by the registered
marketplace with a valid license type fails precisely with
`SampleExclusivelyLicensed`. -/
theorem C1_exclusive_forecloses_sample :
    ∀ s, Reachable s → ∀ sample_id,
      (∀ i j li lj, s.licenses i = some li → s.licenses j = some lj →
        li.sample_id = sample_id → lj.sample_id = sample_id →
        li.license_type = LicenseType.Exclusive →
        lj.license_type = LicenseType.Exclusive → i = j) ∧
      ((∃ id l, s.licenses id = some l ∧ l.sample_id = sample_id ∧
          l.license_type = LicenseType.Exclusive) →
        ∀ caller ts ltv buyer oc p,
          (∀ r, mint_license s caller ts sample_id ltv buyer oc p ≠ .ok r) ∧
          (s.marketplace = some caller → (LicenseType.from_u8 ltv).isSome →
            mint_license s caller ts sample_id ltv buyer oc p =
              .error .SampleExclusivelyLicensed)) := by
  intro s hreach sample_id
  obtain ⟨hF, hZ, hE, hX, hG, hS, hO⟩ := reachable_inv hreach
  constructor
  · intro i j li lj hi hj hsi hsj hei hej
    exact hX i j li lj hi hj (by rw [hsi, hsj]) hei hej
  · intro hex caller ts ltv buyer oc p
    have hflag : s.sample_has_exclusive sample_id = true := (hE sample_id).mpr hex
    constructor
    · intro r hcon
      obtain ⟨lt, hm, hlt, hexf, -, -⟩ := mint_license_ok hcon
      rw [hflag] at hexf
      cases hexf
    · intro hm hsome
      obtain ⟨lt, hlt⟩ := Option.isSome_iff_exists.mp hsome
      unfold mint_license
      rw [hm]
      simp [hlt, hflag]

/-- Witness for C1: after minting an Exclusive license for sample 9,
a well-formed Personal mint for sample 9 fails with the exclusivity
error. -/
theorem C1_exclusive_forecloses_sample_witness :
    mint_license exclState 1 0 9 0 3 4 10 = .error .SampleExclusivelyLicensed :=
  ((C1_exclusive_forecloses_sample exclState ⟨0, exclOps, rfl⟩ 9).2
    ⟨1, { license_id := 1, sample_id := 9, license_type := .Exclusive,
          original_creator := 4, current_owner := 2, purchase_price := 50,
          purchase_timestamp := 0, is_active := true, transfer_count := 0 },
      by decide, rfl, rfl⟩ 1 0 0 3 4 10).2 (by decide) (by decide)

/-- Counterexample for C2: a reachable state in which account 3 holds
two active Personal licenses (ids 1 and 2) for sample 7, because
`transfer_license` does not check whether the recipient already holds
an active license of the transferred type. -/
theorem C2_counterexample : ¬ ∀ s, Reachable s → AtMostOnePerTriple s := by
  intro h
  have h12 : (1 : Nat) = 2 :=
    h dupState ⟨0, dupOps, rfl⟩ 1 2
      { license_id := 1, sample_id := 7, license_type := .Personal,
        original_creator := 4, current_owner := 3, purchase_price := 10,
        purchase_timestamp := 0, is_active := true, transfer_count := 1 }
      { license_id := 2, sample_id := 7, license_type := .Personal,
        original_creator := 4, current_owner := 3, purchase_price := 10,
        purchase_timestamp := 0, is_active := true, transfer_count := 0 }
      (by decide) (by decide) rfl rfl rfl rfl rfl
  exact absurd h12 (by decide)

/-- C2 (amended): along every trace in which no transfer's recipient
already holds an active license of the transferred license's type for
its sample, every account holds at most one active license per
(sample, type); moreover every successful transfer clears the guard
for the previous owner (when the recipient differs) and sets it for
the recipient, and every successful mint sets it for the buyer. -/
theorem C2_at_most_one_per_triple_amended :
    (∀ admin ops, dupSafeTrace (initState admin) ops = true →
      AtMostOnePerTriple (runTrace (initState admin) ops)) ∧
    (∀ s caller av lid t sp s' ev l,
      transfer_license s caller av lid t sp = .ok (s', ev) →
      s.licenses lid = some l → t ≠ l.current_owner →
      s'.user_has_license_type l.current_owner l.sample_id l.license_type.to_u8 = false ∧
      s'.user_has_license_type t l.sample_id l.license_type.to_u8 = true) ∧
    (∀ s caller ts sid ltv b oc p s' nid,
      mint_license s caller ts sid ltv b oc p = .ok (s', nid) →
      s'.user_has_license_type b sid ltv = true) := by
  refine ⟨?_, ?_, ?_⟩
  · intro admin ops hsafe
    exact (dinv_runTrace (dinv_initState admin) hsafe).2.2
  · intro s caller av lid t sp s' ev l hok hl ht
    obtain ⟨l0, hl0, -, -, -, -, hr⟩ := transfer_license_ok hok
    rw [hl] at hl0
    have hll : l0 = l := Option.some.inj hl0.symm
    subst hll
    have hs' : s' = (transferApply s l0 lid t sp).1 := congrArg Prod.fst hr
    rw [hs', transferApply_user_has]
    constructor
    · rw [updf3_ne _ _ _ _ _ fun hcon => ht hcon.1.symm, updf3_self]
    · rw [updf3_self]
  · intro s caller ts sid ltv b oc p s' nid hok
    obtain ⟨lt, -, -, -, -, hr⟩ := mint_license_ok hok
    have hs' : s' = (mintApply s ts sid ltv b oc p lt).1 := congrArg Prod.fst hr
    rw [hs', mintApply_user_has, updf3_self]

/-- Witness for C2 (amended), at a concrete duplicate-safe trace. -/
theorem C2_at_most_one_per_triple_amended_witness :
    AtMostOnePerTriple (runTrace (initState 0) safeOps) :=
  C2_at_most_one_per_triple_amended.1 0 safeOps (by decide)

/-- Counterexample for C3: in the reachable state `dupState2` the
guard bit for (account 3, sample 7, Personal) is false although
account 3 still owns the active Personal license 2 for sample 7. -/
theorem C3_counterexample : ¬ ∀ s, Reachable s → GuardIffInv s := by
  intro h
  have hguard : dupState2.user_has_license_type 3 7 0 = true :=
    (h dupState2 ⟨0, dupOps2, rfl⟩ 3 7 0).mpr
      ⟨2, { license_id := 2, sample_id := 7, license_type := .Personal,
            original_creator := 4, current_owner := 3, purchase_price := 10,
            purchase_timestamp := 0, is_active := true, transfer_count := 0 },
        by decide, rfl, rfl, rfl, rfl⟩
  exact absurd hguard (by decide)

/-- C3 (amended): in every reachable state the forward direction
holds — whenever the duplicate-guard boolean is true, the account
currently owns an active stored license of exactly that type for that
sample.  (The reverse direction fails, see the counterexample.) -/
theorem C3_guard_forward_amended :
    ∀ s, Reachable s → ∀ a sample_id ltv,
      s.user_has_license_type a sample_id ltv = true →
      ∃ id l, s.licenses id = some l ∧ l.current_owner = a ∧
        l.sample_id = sample_id ∧ l.license_type.to_u8 = ltv ∧
        l.is_active = true := by
  intro s hreach
  exact (reachable_inv hreach).2.2.2.2.1

/-- Witness for C3 (amended): the guard bit set for account 3 in
`dupState` is backed by an owned active license. -/
theorem C3_guard_forward_amended_witness :
    ∃ id l, dupState.licenses id = some l ∧ l.current_owner = 3 ∧
      l.sample_id = 7 ∧ l.license_type.to_u8 = 0 ∧ l.is_active = true :=
  C3_guard_forward_amended dupState ⟨0, dupOps, rfl⟩ 3 7 0 (by decide)

/-- C4: under the ownership/active/non-exclusive preconditions of
`transfer_license`, the required total is
`sale_price + sale_price * 10 / 100 + sale_price * 2 / 100` (all
truncating), the call fails with `InsufficientRoyaltyPayment` exactly
when the attached value is strictly below that total, and on success
the original creator's withdrawable balance grows by exactly
`sale_price * 10 / 100`. -/
theorem C4_transfer_payment (s : State) (caller av lid t sp : Nat)
    (l : LicenseMetadata) (hl : s.licenses lid = some l)
    (hown : l.current_owner = caller) (hact : l.is_active = true)
    (hexcl : l.license_type ≠ LicenseType.Exclusive) :
    (av < sp + sp * 10 / 100 + sp * 2 / 100 →
      transfer_license s caller av lid t sp = .error .InsufficientRoyaltyPayment) ∧
    (sp + sp * 10 / 100 + sp * 2 / 100 ≤ av →
      ∃ s' ev, transfer_license s caller av lid t sp = .ok (s', ev) ∧
        s'.creator_royalty_earnings l.original_creator =
          s.creator_royalty_earnings l.original_creator + sp * 10 / 100) := by
  have hex8 : l.license_type.to_u8 ≠ LicenseType.Exclusive.to_u8 := fun hcon =>
    hexcl ((LicenseType.to_u8_eq_excl_iff _).mp hcon)
  have hactf : ¬(l.is_active = false) := by
    rw [hact]
    exact fun hcon => Bool.noConfusion hcon
  constructor
  · intro hlt
    unfold transfer_license CREATOR_ROYALTY_PERCENT RESALE_PLATFORM_FEE_PERCENT
    rw [hl]
    dsimp only
    rw [if_neg (not_not_intro hown), if_neg hactf, if_neg hex8, if_pos hlt]
  · intro hpay
    refine ⟨(transferApply s l lid t sp).1, (transferApply s l lid t sp).2,
      transfer_license_ok_intro hl hown hact hex8 hpay, ?_⟩
    rw [transferApply_earnings]
    exact updf_self _ _ _

/-- Witness for C4: the spec's concrete scenario — sale price 1000
requires 1120 attached; 1119 fails, 1120 succeeds and credits the
creator exactly 100. -/
theorem C4_transfer_payment_witness :
    (transfer_license payState 2 1119 1 3 1000 =
      .error .InsufficientRoyaltyPayment) ∧
    ∃ s' ev, transfer_license payState 2 1120 1 3 1000 = .ok (s', ev) ∧
      s'.creator_royalty_earnings 4 =
        payState.creator_royalty_earnings 4 + 100 :=
  ⟨(C4_transfer_payment payState 2 1119 1 3 1000
      { license_id := 1, sample_id := 7, license_type := .Personal,
        original_creator := 4, current_owner := 2, purchase_price := 10,
        purchase_timestamp := 0, is_active := true, transfer_count := 0 }
      (by decide) rfl rfl (by decide)).1 (by decide),
   (C4_transfer_payment payState 2 1120 1 3 1000
      { license_id := 1, sample_id := 7, license_type := .Personal,
        original_creator := 4, current_owner := 2, purchase_price := 10,
        purchase_timestamp := 0, is_active := true, transfer_count := 0 }
      (by decide) rfl rfl (by decide)).2 (by decide)⟩

/-- C10: when the attached value strictly exceeds the required total,
a successful `transfer_license` behaves exactly as if only the
required total were attached: the outgoing token transfers are exactly
`sale_price` to the previous owner and the 2% platform fee to the
admin, and the surplus is never refunded. -/
theorem C10_surplus_retained (s : State) (caller av lid t sp : Nat)
    (l : LicenseMetadata) (hl : s.licenses lid = some l)
    (hown : l.current_owner = caller) (hact : l.is_active = true)
    (hexcl : l.license_type ≠ LicenseType.Exclusive)
    (hgt : sp + sp * 10 / 100 + sp * 2 / 100 < av) :
    transfer_license s caller av lid t sp =
      transfer_license s caller (sp + sp * 10 / 100 + sp * 2 / 100) lid t sp ∧
    ∃ s' ev, transfer_license s caller av lid t sp = .ok (s', ev) ∧
      tokenTransfersOf ev = [(caller, sp), (s.admin, sp * 2 / 100)] := by
  have hex8 : l.license_type.to_u8 ≠ LicenseType.Exclusive.to_u8 := fun hcon =>
    hexcl ((LicenseType.to_u8_eq_excl_iff _).mp hcon)
  have h1 := transfer_license_ok_intro (v := av) (t := t) hl hown hact hex8
    (Nat.le_of_lt hgt)
  have h2 := transfer_license_ok_intro
    (v := sp + sp * 10 / 100 + sp * 2 / 100) (t := t) hl hown hact hex8
    (Nat.le_refl _)
  constructor
  · rw [h1, h2]
  · refine ⟨(transferApply s l lid t sp).1, (transferApply s l lid t sp).2, h1, ?_⟩
    rcases hf : findSlot (s.owner_license_at l.current_owner) lid
        (s.owner_license_count l.current_owner) with _ | i
    · rw [transferApply_notfound t sp hf]
      simp [tokenTransfersOf, hown]
      rfl
    · rw [transferApply_found t sp hf]
      simp [tokenTransfersOf, hown]
      rfl

/-- Witness for C10: attaching 2000 instead of the required 1120
still moves exactly 1000 to the seller and 20 to the admin. -/
theorem C10_surplus_retained_witness :
    (transfer_license payState 2 2000 1 3 1000 =
      transfer_license payState 2 1120 1 3 1000) ∧
    ∃ s' ev, transfer_license payState 2 2000 1 3 1000 = .ok (s', ev) ∧
      tokenTransfersOf ev = [(2, 1000), (0, 20)] :=
  C10_surplus_retained payState 2 2000 1 3 1000
    { license_id := 1, sample_id := 7, license_type := .Personal,
      original_creator := 4, current_owner := 2, purchase_price := 10,
      purchase_timestamp := 0, is_active := true, transfer_count := 0 }
    (by decide) rfl rfl (by decide) (by decide)

/-- C5: a successful `transfer_license` performs its effects in
exactly the order (1) persist the re-owned license record,
(2) tombstone the previous owner's index slot and append to the new
owner's index, (3) clear the previous owner's guard and set the
recipient's, then (4) pay `sale_price` to the previous owner,
(5) credit the 10% royalty to the original creator only, and
(6) pay the 2% fee to the admin. -/
theorem C5_transfer_effect_order (s : State) (caller av lid t sp i : Nat)
    (l : LicenseMetadata) (hl : s.licenses lid = some l)
    (hown : l.current_owner = caller) (hact : l.is_active = true)
    (hexcl : l.license_type ≠ LicenseType.Exclusive)
    (hpay : sp + sp * 10 / 100 + sp * 2 / 100 ≤ av)
    (hfs : findSlot (s.owner_license_at caller) lid
      (s.owner_license_count caller) = some i) :
    ∃ s', transfer_license s caller av lid t sp = .ok (s',
        [Event.persistLicense lid
          { l with current_owner := t, transfer_count := l.transfer_count + 1 },
         Event.tombstoneOwnerSlot caller i,
         Event.appendOwnerIndex t (s.owner_license_count t) lid,
         Event.clearGuard caller l.sample_id l.license_type.to_u8,
         Event.setGuard t l.sample_id l.license_type.to_u8 lid,
         Event.tokenTransfer caller sp,
         Event.creditRoyalty l.original_creator (sp * 10 / 100),
         Event.tokenTransfer s.admin (sp * 2 / 100)]) ∧
      s'.licenses lid =
        some { l with current_owner := t, transfer_count := l.transfer_count + 1 } ∧
      s'.creator_royalty_earnings l.original_creator =
        s.creator_royalty_earnings l.original_creator + sp * 10 / 100 ∧
      (∀ a, a ≠ l.original_creator →
        s'.creator_royalty_earnings a = s.creator_royalty_earnings a ∧
        s'.creator_total_royalties a = s.creator_total_royalties a) := by
  have hex8 : l.license_type.to_u8 ≠ LicenseType.Exclusive.to_u8 := fun hcon =>
    hexcl ((LicenseType.to_u8_eq_excl_iff _).mp hcon)
  rw [← hown] at hfs
  have h1 := transfer_license_ok_intro (v := av) (t := t) hl hown hact hex8 hpay
  refine ⟨(transferApply s l lid t sp).1, ?_, ?_, ?_, ?_⟩
  · rw [h1]
    rw [transferApply_found t sp hfs, hown]
    rfl
  · rw [transferApply_licenses]
    exact updf_self _ _ _
  · rw [transferApply_earnings]
    exact updf_self _ _ _
  · intro a ha
    rw [transferApply_earnings, transferApply_totals]
    exact ⟨updf_ne _ _ _ ha, updf_ne _ _ _ ha⟩

/-- Witness for C5, on a concrete freshly minted license. -/
theorem C5_transfer_effect_order_witness :
    ∃ s', transfer_license payState 2 1120 1 3 1000 = .ok (s',
        [Event.persistLicense 1
          { license_id := 1, sample_id := 7, license_type := .Personal,
            original_creator := 4, current_owner := 3, purchase_price := 10,
            purchase_timestamp := 0, is_active := true, transfer_count := 1 },
         Event.tombstoneOwnerSlot 2 0,
         Event.appendOwnerIndex 3 0 1,
         Event.clearGuard 2 7 0,
         Event.setGuard 3 7 0 1,
         Event.tokenTransfer 2 1000,
         Event.creditRoyalty 4 100,
         Event.tokenTransfer 0 20]) ∧
      s'.licenses 1 = some
        { license_id := 1, sample_id := 7, license_type := .Personal,
          original_creator := 4, current_owner := 3, purchase_price := 10,
          purchase_timestamp := 0, is_active := true, transfer_count := 1 } ∧
      s'.creator_royalty_earnings 4 = payState.creator_royalty_earnings 4 + 100 ∧
      (∀ a, a ≠ 4 →
        s'.creator_royalty_earnings a = payState.creator_royalty_earnings a ∧
        s'.creator_total_royalties a = payState.creator_total_royalties a) :=
  C5_transfer_effect_order payState 2 1120 1 3 1000 0
    { license_id := 1, sample_id := 7, license_type := .Personal,
      original_creator := 4, current_owner := 2, purchase_price := 10,
      purchase_timestamp := 0, is_active := true, transfer_count := 0 }
    (by decide) rfl rfl (by decide) (by decide) (by decide)

/-- C6: `mint_license` checks its preconditions in the exact source
order — missing marketplace, wrong caller, invalid type, exclusivity,
duplicate — with the first failure winning; the five error codes are
pairwise distinct; and a failing call leaves the state unchanged
(transaction semantics `applyOp`). -/
theorem C6_mint_error_order :
    (∀ s caller ts sid ltv b oc p,
      (s.marketplace = none →
        mint_license s caller ts sid ltv b oc p = .error .LicenseContractNotSet) ∧
      (∀ m, s.marketplace = some m → caller ≠ m →
        mint_license s caller ts sid ltv b oc p = .error .Unauthorized) ∧
      (s.marketplace = some caller → LicenseType.from_u8 ltv = none →
        mint_license s caller ts sid ltv b oc p = .error .InvalidLicenseType) ∧
      (s.marketplace = some caller → (LicenseType.from_u8 ltv).isSome →
        s.sample_has_exclusive sid = true →
        mint_license s caller ts sid ltv b oc p =
          .error .SampleExclusivelyLicensed) ∧
      (s.marketplace = some caller → (LicenseType.from_u8 ltv).isSome →
        s.sample_has_exclusive sid = false →
        s.user_has_license_type b sid ltv = true →
        mint_license s caller ts sid ltv b oc p = .error .AlreadyHasLicenseType) ∧
      (∀ e, mint_license s caller ts sid ltv b oc p = .error e →
        applyOp s (.mint caller ts sid ltv b oc p) = s)) ∧
    ([Error.code .LicenseContractNotSet, Error.code .Unauthorized,
      Error.code .InvalidLicenseType, Error.code .SampleExclusivelyLicensed,
      Error.code .AlreadyHasLicenseType].Pairwise (· ≠ ·)) := by
  constructor
  · intro s caller ts sid ltv b oc p
    refine ⟨?_, ?_, ?_, ?_, ?_, ?_⟩
    · intro hm
      unfold mint_license
      rw [hm]
    · intro m hm hc
      unfold mint_license
      rw [hm]
      dsimp only
      rw [if_pos hc]
    · intro hm hlt
      unfold mint_license
      rw [hm, hlt]
      simp
    · intro hm hsome hflag
      obtain ⟨lt, hlt⟩ := Option.isSome_iff_exists.mp hsome
      unfold mint_license
      rw [hm, hlt]
      simp [hflag]
    · intro hm hsome hflag hdup
      obtain ⟨lt, hlt⟩ := Option.isSome_iff_exists.mp hsome
      unfold mint_license
      rw [hm, hlt]
      simp [hflag, hdup]
    · intro e he
      simp only [applyOp, he]
  · decide

/-- Witness for C6: each error clause exercised on a concrete state. -/
theorem C6_mint_error_order_witness :
    mint_license (initState 0) 1 0 7 0 2 4 10 = .error .LicenseContractNotSet ∧
    mint_license payState 9 0 7 0 2 4 10 = .error .Unauthorized ∧
    mint_license payState 1 0 7 9 2 4 10 = .error .InvalidLicenseType ∧
    mint_license exclState 1 0 9 0 2 4 10 = .error .SampleExclusivelyLicensed ∧
    mint_license payState 1 0 7 0 2 4 10 = .error .AlreadyHasLicenseType ∧
    applyOp (initState 0) (.mint 1 0 7 0 2 4 10) = initState 0 :=
  ⟨(C6_mint_error_order.1 (initState 0) 1 0 7 0 2 4 10).1 rfl,
   (C6_mint_error_order.1 payState 9 0 7 0 2 4 10).2.1 1 (by decide) (by decide),
   (C6_mint_error_order.1 payState 1 0 7 9 2 4 10).2.2.1 (by decide) (by decide),
   (C6_mint_error_order.1 exclState 1 0 9 0 2 4 10).2.2.2.1 (by decide) (by decide)
     (by decide),
   (C6_mint_error_order.1 payState 1 0 7 0 2 4 10).2.2.2.2.1 (by decide) (by decide)
     (by decide) (by decide),
   (C6_mint_error_order.1 (initState 0) 1 0 7 0 2 4 10).2.2.2.2.2 _ rfl⟩

/-- C7: `withdraw_royalties` fails with `NoRoyaltiesToWithdraw`
exactly when the caller's withdrawable balance is zero; on success it
zeroes that balance before emitting the single outgoing transfer of
the full prior amount, and it leaves every lifetime total and every
other account's withdrawable balance unchanged. -/
theorem C7_withdraw_royalties :
    ∀ s caller,
      (withdraw_royalties s caller = .error .NoRoyaltiesToWithdraw ↔
        s.creator_royalty_earnings caller = 0) ∧
      (s.creator_royalty_earnings caller ≠ 0 →
        ∃ s', withdraw_royalties s caller = .ok (s',
            [Event.zeroEarnings caller,
             Event.tokenTransfer caller (s.creator_royalty_earnings caller)]) ∧
          s'.creator_royalty_earnings caller = 0 ∧
          (∀ a, a ≠ caller →
            s'.creator_royalty_earnings a = s.creator_royalty_earnings a) ∧
          (∀ a, s'.creator_total_royalties a = s.creator_total_royalties a)) := by
  intro s caller
  constructor
  · constructor
    · intro he
      by_cases hz : s.creator_royalty_earnings caller = 0
      · exact hz
      · rw [withdraw_royalties_ok_intro hz] at he
        cases he
    · intro hz
      unfold withdraw_royalties
      rw [if_pos hz]
  · intro hz
    refine ⟨_, withdraw_royalties_ok_intro hz, updf_self _ _ _, ?_, fun a => rfl⟩
    intro a ha
    exact updf_ne _ _ _ ha

/-- Witness for C7: creator 4 withdraws the accrued 100; account 9
with zero balance fails. -/
theorem C7_withdraw_royalties_witness :
    (withdraw_royalties wdState 9 = .error .NoRoyaltiesToWithdraw) ∧
    ∃ s', withdraw_royalties wdState 4 = .ok (s',
        [Event.zeroEarnings 4, Event.tokenTransfer 4 100]) ∧
      s'.creator_royalty_earnings 4 = 0 ∧
      (∀ a, a ≠ 4 →
        s'.creator_royalty_earnings a = wdState.creator_royalty_earnings a) ∧
      (∀ a, s'.creator_total_royalties a = wdState.creator_total_royalties a) :=
  ⟨(C7_withdraw_royalties wdState 9).1.mpr (by decide),
   (C7_withdraw_royalties wdState 4).2 (by decide)⟩

/-! Royalty accounting along traces. -/

theorem royalty_step (s : State) (op : Op) (a c : Nat)
    (h : s.creator_total_royalties a = s.creator_royalty_earnings a + c) :
    (applyOp s op).creator_total_royalties a =
      (applyOp s op).creator_royalty_earnings a + (c + payout s op a) := by
  cases op with
  | setMarketplace c0 m =>
    rcases applyOp_setMarketplace_cases s c0 m with heq | heq <;> rw [heq] <;>
      simp only [payout, Nat.add_zero] <;> exact h
  | mint c0 ts sid ltv b oc p =>
    rcases applyOp_mint_cases s c0 ts sid ltv b oc p with heq | ⟨lt, -, -, -, heq⟩ <;>
      rw [heq]
    · simp only [payout, Nat.add_zero]
      exact h
    · rw [mintApply_totals, mintApply_earnings]
      simp only [payout, Nat.add_zero]
      exact h
  | transfer c0 av lid t sp =>
    rcases applyOp_transfer_cases s c0 av lid t sp with heq | ⟨l, -, -, -, -, heq⟩ <;>
      rw [heq]
    · simp only [payout, Nat.add_zero]
      exact h
    · rw [transferApply_totals, transferApply_earnings]
      simp only [payout, Nat.add_zero]
      by_cases ha : a = l.original_creator
      · rw [ha] at h ⊢
        rw [updf_self, updf_self]
        omega
      · rw [updf_ne _ _ _ ha, updf_ne _ _ _ ha]
        exact h
  | withdraw c0 =>
    by_cases hz : s.creator_royalty_earnings c0 = 0
    · have herr : withdraw_royalties s c0 = .error .NoRoyaltiesToWithdraw := by
        unfold withdraw_royalties
        rw [if_pos hz]
      simp only [applyOp, payout, herr, Nat.add_zero]
      exact h
    · have hok := withdraw_royalties_ok_intro hz
      simp only [applyOp, payout, hok]
      show s.creator_total_royalties a =
        updf s.creator_royalty_earnings c0 0 a +
          (c + if a = c0 then s.creator_royalty_earnings c0 else 0)
      by_cases ha : a = c0
      · rw [ha] at h ⊢
        rw [updf_self, if_pos rfl]
        omega
      · rw [updf_ne _ _ _ ha, if_neg ha]
        omega

theorem royalty_trace (ops : List Op) : ∀ (s : State) (a c : Nat),
    s.creator_total_royalties a = s.creator_royalty_earnings a + c →
    (runTrace s ops).creator_total_royalties a =
      (runTrace s ops).creator_royalty_earnings a +
        (c + totalWithdrawn s ops a) := by
  induction ops with
  | nil =>
    intro s a c h
    simpa using h
  | cons op rest ih =>
    intro s a c h
    have hstep := royalty_step s op a c h
    have hrest := ih (applyOp s op) a (c + payout s op a) hstep
    simp only [runTrace, totalWithdrawn] at *
    omega

/-- C9: the lifetime royalty total is monotonically non-decreasing
across every call; in every reachable state it dominates the
withdrawable balance, and it equals the withdrawable balance plus the
sum of all amounts ever paid out by `withdraw_royalties`. -/
theorem C9_lifetime_royalty_accounting :
    (∀ s op a, s.creator_total_royalties a ≤
      (applyOp s op).creator_total_royalties a) ∧
    (∀ admin ops a,
      (runTrace (initState admin) ops).creator_royalty_earnings a ≤
        (runTrace (initState admin) ops).creator_total_royalties a ∧
      (runTrace (initState admin) ops).creator_total_royalties a =
        (runTrace (initState admin) ops).creator_royalty_earnings a +
          totalWithdrawn (initState admin) ops a) := by
  constructor
  · intro s op a
    cases op with
    | setMarketplace c m =>
      rcases applyOp_setMarketplace_cases s c m with heq | heq <;> rw [heq]
    | mint c ts sid ltv b oc p =>
      rcases applyOp_mint_cases s c ts sid ltv b oc p with heq | ⟨lt, -, -, -, heq⟩
      · rw [heq]
      · rw [heq, mintApply_totals]
    | transfer c av lid t sp =>
      rcases applyOp_transfer_cases s c av lid t sp with heq | ⟨l, -, -, -, -, heq⟩
      · rw [heq]
      · rw [heq, transferApply_totals]
        by_cases ha : a = l.original_creator
        · rw [ha, updf_self]
          exact Nat.le_add_right _ _
        · rw [updf_ne _ _ _ ha]
    | withdraw c =>
      rcases applyOp_withdraw_cases s c with heq | heq <;> rw [heq]
  · intro admin ops a
    have h := royalty_trace ops (initState admin) a 0 rfl
    constructor
    · omega
    · simpa using h

/-! Remaining occurrence and enumeration lemmas. -/

theorem occUpTo_pos_of {f : Nat → Option Nat} {id n i : Nat}
    (hi : i < n) (hv : f i = some id) : 0 < occUpTo f id n := by
  induction n with
  | zero => exact absurd hi (Nat.not_lt_zero i)
  | succ n ih =>
    simp only [occUpTo]
    rcases Nat.lt_succ_iff_lt_or_eq.mp hi with h | h
    · have := ih h
      omega
    · subst h
      rw [hv, if_pos rfl]
      omega

theorem occ_one_unique {f : Nat → Option Nat} {id n i j : Nat}
    (hocc : occUpTo f id n = 1) (hi : i < n) (hvi : f i = some id)
    (hj : j < n) (hvj : f j = some id) : i = j := by
  by_contra hne
  have h1 := occUpTo_updf_hit (v := none) hi hvi (fun hcon => Option.noConfusion hcon)
  have h2 : (updf f i none) j = some id := by
    rw [updf_ne _ _ _ fun hcon => hne hcon.symm]
    exact hvj
  have h3 := occUpTo_pos_of (f := updf f i none) hj h2
  omega

theorem exists_findSlot_of_occ_one {f : Nat → Option Nat} {id n : Nat}
    (h : occUpTo f id n = 1) : ∃ i, findSlot f id n = some i := by
  rcases hfs : findSlot f id n with _ | i
  · rw [occUpTo_eq_zero_of (findSlot_none_iff.mp hfs)] at h
    cases h
  · exact ⟨i, rfl⟩

theorem count_licensesByOwnerUpTo (s : State) (a id : Nat) (l : LicenseMetadata)
    (hid0 : 0 < id) (hl : s.licenses id = some l) :
    ∀ n, List.count id (licensesByOwnerUpTo s a n) =
      if l.current_owner = a then occUpTo (s.owner_license_at a) id n else 0
  | 0 => by simp [licensesByOwnerUpTo, occUpTo]
  | n + 1 => by
    have ih := count_licensesByOwnerUpTo s a id l hid0 hl n
    rcases hslot : s.owner_license_at a n with _ | j
    · simp [licensesByOwnerUpTo, occUpTo, List.count_append, ih, hslot]
    · by_cases hj : j = id
      · subst hj
        by_cases hca : l.current_owner = a <;>
          simp [licensesByOwnerUpTo, occUpTo, List.count_append, ih, hslot, hl,
            hid0, hca]
      · rcases hlj : s.licenses j with _ | w
        · by_cases hca : l.current_owner = a <;>
            simp [licensesByOwnerUpTo, occUpTo, List.count_append, ih, hslot,
              hlj, hj, hca]
        · have hij : id ≠ j := fun hcon => hj hcon.symm
          by_cases hwa : w.current_owner = a <;>
            by_cases hca : l.current_owner = a <;>
              simp [licensesByOwnerUpTo, occUpTo, List.count_append, ih, hslot,
                hlj, hj, hca, hwa] <;>
              split <;> simp [hij]

/-- Specialization of `count_licensesByOwnerUpTo` to the view
function. -/
theorem count_get_licenses_by_owner (s : State) (a id : Nat) (l : LicenseMetadata)
    (hid0 : 0 < id) (hl : s.licenses id = some l) :
    List.count id (get_licenses_by_owner s a) =
      if l.current_owner = a then occCount s a id else 0 :=
  count_licensesByOwnerUpTo s a id l hid0 hl (s.owner_license_count a)

/-- C8: transferring a non-exclusive active license from A to B and
back (each leg with sufficient attached value) restores A as owner and
adds exactly 2 to the transfer count (2 for a freshly minted license);
afterwards the license appears exactly once in A's owner enumeration,
through a newly appended index slot while every original slot stays
tombstoned, and it does not appear in B's enumeration. -/
theorem C8_round_trip (s : State) (av1 av2 lid A B sp1 sp2 : Nat)
    (l : LicenseMetadata) (hreach : Reachable s)
    (hl : s.licenses lid = some l) (hown : l.current_owner = A)
    (hact : l.is_active = true) (hexcl : l.license_type ≠ LicenseType.Exclusive)
    (hAB : A ≠ B)
    (hpay1 : sp1 + sp1 * 10 / 100 + sp1 * 2 / 100 ≤ av1)
    (hpay2 : sp2 + sp2 * 10 / 100 + sp2 * 2 / 100 ≤ av2) :
    ∃ s1 ev1 s2 ev2,
      transfer_license s A av1 lid B sp1 = .ok (s1, ev1) ∧
      transfer_license s1 B av2 lid A sp2 = .ok (s2, ev2) ∧
      (∃ l2, s2.licenses lid = some l2 ∧ l2.current_owner = A ∧
        l2.transfer_count = l.transfer_count + 2 ∧
        (l.transfer_count = 0 → l2.transfer_count = 2)) ∧
      List.count lid (get_licenses_by_owner s2 A) = 1 ∧
      lid ∉ get_licenses_by_owner s2 B ∧
      s2.owner_license_at A (s.owner_license_count A) = some lid ∧
      (∀ i, i < s.owner_license_count A → s.owner_license_at A i = some lid →
        s2.owner_license_at A i = some 0) := by
  obtain ⟨hF, hZ, hE, hX, hG, hS, hO⟩ := reachable_inv hreach
  have hex8 : l.license_type.to_u8 ≠ LicenseType.Exclusive.to_u8 := fun hcon =>
    hexcl ((LicenseType.to_u8_eq_excl_iff _).mp hcon)
  have hlid0 : lid ≠ 0 := fun hcon => by rw [hcon, hZ] at hl; cases hl
  have h1 := transfer_license_ok_intro (v := av1) (t := B) hl hown hact hex8 hpay1
  have hoccA : occUpTo (s.owner_license_at A) lid (s.owner_license_count A) = 1 := by
    have h := hO A lid l hl
    unfold occCount at h
    rwa [if_pos hown] at h
  obtain ⟨i1, hfs1⟩ := exists_findSlot_of_occ_one hoccA
  have hfs1' : findSlot (s.owner_license_at l.current_owner) lid
      (s.owner_license_count l.current_owner) = some i1 := by
    rw [hown]
    exact hfs1
  set s1 := (transferApply s l lid B sp1).1 with hs1def
  have happly1 : applyOp s (.transfer A av1 lid B sp1) = s1 := by
    simp only [applyOp, h1]
  obtain ⟨hF1, hZ1, hE1, hX1, hG1, hS1, hO1⟩ :=
    happly1 ▸ inv_applyOp ⟨hF, hZ, hE, hX, hG, hS, hO⟩ (.transfer A av1 lid B sp1)
  set l1 : LicenseMetadata :=
    { l with current_owner := B, transfer_count := l.transfer_count + 1 } with hl1def
  have hl1 : s1.licenses lid = some l1 := by
    rw [hs1def, transferApply_licenses]
    exact updf_self _ _ _
  have h2 := transfer_license_ok_intro (v := av2) (t := A) hl1 rfl hact hex8 hpay2
  set s2 := (transferApply s1 l1 lid A sp2).1 with hs2def
  have happly2 : applyOp s1 (.transfer B av2 lid A sp2) = s2 := by
    simp only [applyOp, h2]
  obtain ⟨hF2, hZ2, hE2, hX2, hG2, hS2, hO2⟩ :=
    happly2 ▸ inv_applyOp ⟨hF1, hZ1, hE1, hX1, hG1, hS1, hO1⟩ (.transfer B av2 lid A sp2)
  have hl2 : s2.licenses lid =
      some { l1 with current_owner := A, transfer_count := l1.transfer_count + 1 } := by
    rw [hs2def, transferApply_licenses]
    exact updf_self _ _ _
  have hcntA1 : s1.owner_license_count A = s.owner_license_count A := by
    rw [hs1def, transferApply_owner_license_count]
    exact updf_ne _ _ _ hAB
  have hat1 : s1.owner_license_at =
      updf2 (updf2 s.owner_license_at l.current_owner i1 (some 0)) B
        (s.owner_license_count B) (some lid) := by
    rw [hs1def, transferApply_found B sp1 hfs1']
  rw [hown] at hat1
  have hoccB : occUpTo (s1.owner_license_at B) lid (s1.owner_license_count B) = 1 := by
    have h := hO1 B lid l1 hl1
    unfold occCount at h
    rwa [if_pos rfl] at h
  obtain ⟨i2, hfs2⟩ := exists_findSlot_of_occ_one hoccB
  have hfs2' : findSlot (s1.owner_license_at l1.current_owner) lid
      (s1.owner_license_count l1.current_owner) = some i2 := hfs2
  have hat2 : s2.owner_license_at =
      updf2 (updf2 s1.owner_license_at B i2 (some 0)) A
        (s1.owner_license_count A) (some lid) := by
    rw [hs2def, transferApply_found A sp2 hfs2']
  refine ⟨s1, (transferApply s l lid B sp1).2, s2, (transferApply s1 l1 lid A sp2).2,
    h1, h2, ?_, ?_, ?_, ?_, ?_⟩
  · refine ⟨{ l1 with current_owner := A, transfer_count := l1.transfer_count + 1 },
      hl2, rfl, rfl, fun h0 => ?_⟩
    show l.transfer_count + 1 + 1 = 2
    omega
  · have hcnt := count_get_licenses_by_owner s2 A lid
      { l1 with current_owner := A, transfer_count := l1.transfer_count + 1 }
      (Nat.pos_of_ne_zero hlid0) hl2
    rw [if_pos rfl] at hcnt
    rw [hcnt]
    have h := hO2 A lid _ hl2
    rwa [if_pos rfl] at h
  · have hcnt := count_get_licenses_by_owner s2 B lid
      { l1 with current_owner := A, transfer_count := l1.transfer_count + 1 }
      (Nat.pos_of_ne_zero hlid0) hl2
    rw [if_neg (fun hcon => hAB hcon)] at hcnt
    exact List.count_eq_zero.mp hcnt
  · rw [hat2, hcntA1]
    exact updf2_self _ _ _ _
  · intro i hi hslot
    obtain ⟨hi1lt, hi1val⟩ := findSlot_some_of hfs1
    have hii1 : i = i1 := occ_one_unique hoccA hi hslot hi1lt hi1val
    subst hii1
    rw [hat2]
    have hne2 : ¬(A = A ∧ i = s1.owner_license_count A) := by
      rw [hcntA1]
      rintro ⟨-, hcon⟩
      omega
    rw [updf2_ne _ _ _ _ hne2, updf2_ne _ _ _ _ (fun hcon => hAB hcon.1), hat1,
      updf2_ne _ _ _ _ (fun hcon => hAB hcon.1)]
    exact updf2_self _ _ _ _

/-- Witness for C8: round-tripping the freshly minted license 1
between accounts 2 and 3. -/
theorem C8_round_trip_witness :
    ∃ s1 ev1 s2 ev2,
      transfer_license payState 2 1120 1 3 1000 = .ok (s1, ev1) ∧
      transfer_license s1 3 1120 1 2 1000 = .ok (s2, ev2) ∧
      (∃ l2, s2.licenses 1 = some l2 ∧ l2.current_owner = 2 ∧
        l2.transfer_count = 2 ∧ ((0 : Nat) = 0 → l2.transfer_count = 2)) ∧
      List.count 1 (get_licenses_by_owner s2 2) = 1 ∧
      1 ∉ get_licenses_by_owner s2 3 ∧
      s2.owner_license_at 2 1 = some 1 ∧
      (∀ i, i < 1 → payState.owner_license_at 2 i = some 1 →
        s2.owner_license_at 2 i = some 0) :=
  C8_round_trip payState 1120 1120 1 2 3 1000 1000
    { license_id := 1, sample_id := 7, license_type := .Personal,
      original_creator := 4, current_owner := 2, purchase_price := 10,
      purchase_timestamp := 0, is_active := true, transfer_count := 0 }
    ⟨0, mintOps, rfl⟩ (by decide) rfl rfl (by decide) (by decide) (by decide)
    (by decide)

end SampledCasper
